import Mathlib

/-!
Shallow embedding of the typed-fetch request pipeline (src/src/main.ts) and
proofs about its specification claims.

The embedding models the repository's own code directly.  External
collaborators (the platform URL constructor, JSON.parse, the JSON
stringifier utility, the transport function, wall-clock time) are modelled
as an explicit environment, since the source treats them as injected or
platform primitives.
-/

namespace TypedFetch

/-- A JavaScript exception value: the pipeline only ever inspects the
`name` and `message` of caught errors. -/
structure JsErr where
  name : String
  message : String
deriving DecidableEq, Repr

/-- A JSON-like JavaScript value, used for payloads, parsed responses and
schema inputs/outputs. -/
inductive JsVal where
  | str (s : String)
  | num (n : Int)
  | bool (b : Bool)
  | null
  | arr (xs : List JsVal)
  | obj (fields : List (String × JsVal))

/-- JavaScript truthiness of a `JsVal` (objects and arrays are always
truthy, empty strings, zero, `false` and `null` are falsy). -/
def JsVal.truthy : JsVal → Bool
  | .str s => s ≠ ""
  | .num n => n ≠ 0
  | .bool b => b
  | .null => false
  | .arr _ => true
  | .obj _ => true

/-- Truthiness of an optional string (JS: `undefined` and `""` are falsy). -/
def optStrTruthy : Option String → Bool
  | none => false
  | some s => s ≠ ""

/-- Character-list prefix test, modelling JS `String.prototype.startsWith`. -/
def charsStartWith : List Char → List Char → Bool
  | _, [] => true
  | [], _ :: _ => false
  | c :: cs, p :: ps => c = p && charsStartWith cs ps

/-- Models JS `s.startsWith(pat)`. -/
def strStartsWith (s pat : String) : Bool :=
  charsStartWith s.data pat.data

/-- Models JS `s.endsWith(pat)`. -/
def strEndsWith (s pat : String) : Bool :=
  charsStartWith s.data.reverse pat.data.reverse

/-- Substring occurrence on character lists. -/
def charsContain (pat : List Char) : List Char → Bool
  | [] => charsStartWith [] pat
  | c :: cs => charsStartWith (c :: cs) pat || charsContain pat cs

/-- Models JS `s.includes(pat)`. -/
def strContains (s pat : String) : Bool :=
  charsContain pat.data s.data

/-- The closed taxonomy of `TypedFetchError.id` values. -/
inductive ErrId where
  | invalid_options
  | aborted
  | network_or_cors_error
  | request_error
  | hook_cb_error
  | invalid_json
  | response_validation_error
  | timeout
  | invalid_response
deriving DecidableEq, Repr

/-- The string form of each error id, as used in log lines. -/
def errIdToString : ErrId → String
  | .invalid_options => "invalid_options"
  | .aborted => "aborted"
  | .network_or_cors_error => "network_or_cors_error"
  | .request_error => "request_error"
  | .hook_cb_error => "hook_cb_error"
  | .invalid_json => "invalid_json"
  | .response_validation_error => "response_validation_error"
  | .timeout => "timeout"
  | .invalid_response => "invalid_response"

/-- HTTP methods supported by the pipeline. -/
inductive HttpMethod where
  | GET | POST | PUT | DELETE | PATCH
deriving DecidableEq, Repr

/-- A value of `RequestPathParams`: string, number, boolean or arrays
thereof (`undefined` entries are modelled by `Option` at the use site). -/
inductive PathParamVal where
  | str (s : String)
  | num (n : Int)
  | bool (b : Bool)
  | strArr (xs : List String)
  | numArr (xs : List Int)
deriving DecidableEq, Repr

/-- Models JS `String(value)` on a path-parameter value (arrays join with
commas, booleans print as `true`/`false`). -/
def PathParamVal.toJsString : PathParamVal → String
  | .str s => s
  | .num n => toString n
  | .bool b => if b then "true" else "false"
  | .strArr xs => String.intercalate "," xs
  | .numArr xs => String.intercalate "," (xs.map toString)

/-- A `StandardSchemaV1` path segment: the source renders numeric keys as
`[n]`, symbol keys as `[symbol:<toString>]` and string keys verbatim.
A `sym` segment carries the symbol's `toString()` rendering. -/
inductive PathSegment where
  | str (s : String)
  | num (n : Nat)
  | sym (s : String)
deriving DecidableEq, Repr

/-- A `StandardSchemaV1.Issue`: an optional path and a message. -/
structure Issue where
  path : Option (List PathSegment) := none
  message : String
deriving DecidableEq, Repr

/-- Request headers as supplied by the caller: `null` values (modelled as
`none`) mean "omit this header". -/
abbrev ReqHeaders := List (String × Option String)

/-- The platform `Headers` container.  Keys are stored lowercased (the
platform normalizes header names case-insensitively). -/
abbrev HeadersMap := List (String × String)

/-- ASCII lowercasing of a header name (the platform `Headers` container
normalizes names case-insensitively). -/
def strToLower (s : String) : String := ⟨s.data.map Char.toLower⟩

/-- Models `Headers.prototype.set` (replace in place if present, else
append; the container never holds duplicate keys). -/
def headersSet (h : HeadersMap) (k v : String) : HeadersMap :=
  let lk := strToLower k
  if h.any (fun p => p.1 = lk) then
    h.map (fun p => if p.1 = lk then (lk, v) else p)
  else h ++ [(lk, v)]

/-- Models `Headers.prototype.get` (case-insensitive; `none` = `null`). -/
def headersGet (h : HeadersMap) (k : String) : Option String :=
  (h.find? (fun p => p.1 = strToLower k)).map (·.2)

/-- Models `Headers.prototype.delete`. -/
def headersDelete (h : HeadersMap) (k : String) : HeadersMap :=
  h.filter (fun p => p.1 ≠ strToLower k)

/-- A resolved absolute URL, modelling the parts of the platform `URL`
object the pipeline reads or writes: `protocol` (with trailing colon,
e.g. `"http:"`), `host`, `pathname` and the mutable search parameters. -/
structure Url where
  protocol : String
  host : String
  pathname : String
  searchParams : List (String × String) := []
deriving DecidableEq, Repr

/-- Models `url.searchParams.set(k, v)`: replace the first entry with the
same key (dropping later duplicates), else append. -/
def spSet : List (String × String) → String → String → List (String × String)
  | [], k, v => [(k, v)]
  | (k', v') :: rest, k, v =>
    if k' = k then (k, v) :: rest.filter (fun p => p.1 ≠ k)
    else (k', v') :: spSet rest k v

/-- The string `${url.protocol}//${url.host}${url.pathname}` used when a
`URL` object is echoed onto an error. -/
def urlToString (u : Url) : String :=
  u.protocol ++ "//" ++ u.host ++ u.pathname

/-- The full `href` rendering used when a `URL` object is interpolated
into a template string. -/
def urlHref (u : Url) : String :=
  urlToString u ++
    (match u.searchParams with
     | [] => ""
     | ps => "?" ++ String.intercalate "&" (ps.map (fun p => p.1 ++ "=" ++ p.2)))

/-- The first argument of `typedFetch`: a path string or a pre-built
`URL` object. -/
inductive PathOrUrl where
  | str (s : String)
  | url (u : Url)

/-- The string interpolation of `pathOrUrl` into a template literal. -/
def pathOrUrlText : PathOrUrl → String
  | .str s => s
  | .url u => urlHref u

/-! ## Form-data model -/

/-- An element of an array-valued form-data field whose first element is a
`File`: remaining elements may or may not be files. -/
inductive FDItem where
  | file (name : String)
  | nonFile (v : JsVal)

/-- A field value in an object-shaped `RequestFormDataPayload`
(`undefined` entries are modelled by `Option` at the use site). -/
inductive FDValue where
  | str (s : String)
  | file (name : String)
  | fileArr (first : String) (rest : List FDItem)
  | objVal (v : JsVal)

/-- One entry of a built `FormData` container. -/
inductive FDEntry where
  | str (s : String)
  | file (name : String)
deriving DecidableEq, Repr

/-- The `formData` option: either a pre-built `FormData` instance or an
object-shaped spec to be expanded. -/
inductive FormDataArg where
  | inst (entries : List (String × FDEntry))
  | spec (fields : List (String × Option FDValue))

/-! ## Validation adapter (StandardSchemaV1) -/

/-- The outcome of a schema's `~standard.validate` entry point: a pending
`Promise`, a success shape `{value}` or a failure shape `{issues}`. -/
inductive ValidateOutcome where
  | pending
  | value (v : JsVal)
  | issues (issues : List Issue)

/-- An opaque schema capability. -/
structure Schema where
  validate : JsVal → ValidateOutcome

/-- `standardResultValidate` from the source: reject pending (async)
results with a single synthetic issue, otherwise normalize the
`{value}`/`{issues}` shapes into a `Result`. -/
def standardResultValidate (schema : Schema) (input : JsVal) :
    Except (List Issue) JsVal :=
  match schema.validate input with
  | .pending => .error [{ message := "Async validation not supported" }]
  | .issues issues => .error issues
  | .value v => .ok v

/-- `getPathSegmentString` from the source. -/
def getPathSegmentString : PathSegment → String
  | .num n => "[" ++ toString n ++ "]"
  | .sym s => "[symbol:" ++ s ++ "]"
  | .str s => s

/-- The message-rendering part of `getValidationProps`: newline-joined
issues, each prefixed with `$.`-qualified path when a path is present. -/
def renderIssuesMessage (issues : List Issue) : String :=
  String.intercalate "\n"
    (issues.map (fun issue =>
      match issue.path with
      | some path =>
          "$." ++ String.intercalate "." (path.map getPathSegmentString) ++
            ": " ++ issue.message
      | none => issue.message))

/-! ## Error model -/

/-- The `TypedFetchError` payload.  `rawHeaders` models the private
`#rawHeaders` backing field; `causeMsg` models the diagnostic `cause`
(by its message). -/
structure TypedFetchError where
  id : ErrId
  message : String
  status : Nat := 0
  url : String := "?"
  method : Option HttpMethod := none
  payload : Option JsVal := none
  pathParams : Option (List (String × Option PathParamVal)) := none
  jsonPathParams : Option (List (String × Option JsVal)) := none
  rawHeaders : Option ReqHeaders := none
  formData : Option FormDataArg := none
  errResponse : Option JsVal := none
  response : Option JsVal := none
  schemaIssues : Option (List Issue) := none
  retryAttempt : Option Nat := none
  causeMsg : Option String := none

/-- `maskHeaderValue` from the source: keep the first
`min(4, ceil(len / 2))` characters, replace the remainder with `*`. -/
def maskHeaderValue (value : String) : String :=
  let len := value.data.length
  let visible := min 4 ((len + 1) / 2)
  ⟨value.data.take visible ++ List.replicate (len - visible) '*'⟩

/-- `getMaskedHeaders` from the source: skip `null` values, mask the
rest; `undefined` when no non-null header exists. -/
def getMaskedHeaders : Option ReqHeaders → Option (List (String × String))
  | none => none
  | some hs =>
    let masked := hs.filterMap (fun p => p.2.map (fun s => (p.1, maskHeaderValue s)))
    if masked.isEmpty then none else some masked

/-- The `headers` getter of `TypedFetchError` (one-way masked view). -/
def TypedFetchError.headers (e : TypedFetchError) : Option (List (String × String)) :=
  getMaskedHeaders e.rawHeaders

/-- `getUnmaskedHeaders` from the source: the raw backing field. -/
def TypedFetchError.getUnmaskedHeaders (e : TypedFetchError) : Option ReqHeaders :=
  e.rawHeaders

/-- The record produced by `TypedFetchError.toJSON` (the `formData` field
is dropped; `headers` is the masked view). -/
structure SerializedError where
  id : ErrId
  message : String
  headers : Option (List (String × String))
  status : Nat
  payload : Option JsVal
  method : Option HttpMethod
  errResponse : Option JsVal
  pathParams : Option (List (String × Option PathParamVal))
  jsonPathParams : Option (List (String × Option JsVal))
  schemaIssues : Option (List Issue)
  response : Option JsVal
  url : String
  retryAttempt : Option Nat
  causeMsg : Option String

/-- `TypedFetchError.toJSON`: a method call on the error object.  It
returns the serialized view; the receiver is returned unchanged since the
source never writes to the backing fields. -/
def TypedFetchError.toJSON (e : TypedFetchError) : SerializedError × TypedFetchError :=
  ({ id := e.id
     message := e.message
     headers := e.headers
     status := e.status
     payload := e.payload
     method := e.method
     errResponse := e.errResponse
     pathParams := e.pathParams
     jsonPathParams := e.jsonPathParams
     schemaIssues := e.schemaIssues
     response := e.response
     url := e.url
     retryAttempt := e.retryAttempt
     causeMsg := e.causeMsg }, e)

/-- `getCanRetryErrorId` from the source: membership of the error id in
the configured retry set, defaulting to
`['request_error', 'network_or_cors_error']`. -/
def getCanRetryErrorId (errorId : ErrId) (retryOnErrIds : Option (List ErrId)) : Bool :=
  (retryOnErrIds.getD [.request_error, .network_or_cors_error]).contains errorId

/-! ## Call options -/

/-- The context handed to `retry.condition` and `retry.onRetry`. -/
structure RetryCtx where
  error : TypedFetchError
  retryAttempt : Nat
  errorDuration : Nat

/-- The `delayMs` retry option: a fixed number or a function of the
1-indexed attempt number.  A function value models a user callback, so it
may throw (`Except.error`). -/
inductive DelayMs where
  | fixed (ms : Nat)
  | fn (f : Nat → Except JsErr Nat)

/-- The `retry` option.  `origMaxRetries` models the internal
symbol-keyed `[originalMaxRetries]` field threaded through re-invocations.
User callbacks return `Except JsErr _`; an `Except.error` models a thrown
exception. -/
structure RetryOpts where
  maxRetries : Nat
  origMaxRetries : Option Nat := none
  retryOnErrIds : Option (List ErrId) := none
  delayMs : DelayMs
  condition : Option (RetryCtx → Except JsErr Bool) := none
  onRetry : Option (RetryCtx → Except JsErr Unit) := none

/-- The metadata handed to the `responseIsValid` hook. -/
structure RespMeta where
  headers : HeadersMap
  url : String
  hasInstance : Bool

/-- The value produced by `responseIsValid`: `true`, or an `Error`. -/
inductive RespValid where
  | isTrue
  | errVal (e : JsErr)

/-- The options record accepted by `typedFetch`.  User callbacks are
modelled as functions returning `Except JsErr _` (throwing =
`Except.error`); hooks irrelevant to control flow receive the attempt
number they are called with. -/
structure ApiCallParams where
  method : HttpMethod := .GET
  host : Option String := none
  payload : Option JsVal := none
  pathParams : Option (List (String × Option PathParamVal)) := none
  headers : Option ReqHeaders := none
  jsonPathParams : Option (List (String × Option JsVal)) := none
  formData : Option FormDataArg := none
  disablePathValidation : Bool := false
  timeoutMs : Option Nat := none
  hasSignal : Bool := false
  retry : Option RetryOpts := none
  responseIsValid : Option (RespMeta → Except JsErr RespValid) := none
  hasLogger : Bool := false
  onRequest : Option (Nat → Except JsErr Unit) := none
  onResponse : Option (Nat → Except JsErr Unit) := none
  onError : Option (TypedFetchError → Nat → Except JsErr Unit) := none
  jsonResponse : Bool := true
  responseSchema : Option Schema := none
  errorResponseSchema : Option Schema := none
  getMessageFromRequestError : Option (JsVal → Except JsErr String) := none

/-! ## Environment and observable state -/

/-- The body handed to the transport. -/
inductive Body where
  | formBody (entries : List (String × FDEntry))
  | strBody (s : String)
  | noBody
deriving DecidableEq, Repr

/-- The request bundle handed to the transport function. -/
structure FetchRequest where
  url : Url
  headers : HeadersMap
  method : HttpMethod
  body : Body
  hasSignal : Bool
deriving DecidableEq, Repr

/-- The resolved value of one transport invocation. -/
structure FetchResponse where
  getText : Except JsErr String
  status : Nat
  statusText : String
  ok : Bool
  respHeaders : HeadersMap := []
  respUrl : String := ""
  hasInstance : Bool := true

/-- The outcome of one transport invocation: a rejection (classified by
the fault's `name`) or a resolved response. -/
inductive FetchOutcome where
  | reject (e : JsErr)
  | resolve (r : FetchResponse)

/-- The external collaborators of one logical call: the platform `URL`
constructor, the JSON utilities, the transport (indexed by invocation
count so each attempt can behave differently), and the elapsed-time
reading used for `errorDuration`. -/
structure Env where
  newURL : String → Option String → Except JsErr Url
  safeJsonStringify : JsVal → Option String
  jsonParse : String → Except JsErr JsVal
  fetchOutcome : Nat → FetchRequest → FetchOutcome
  nowDuration : Nat := 0

/-- The status argument of a `logEnd.error` call: a number for
`request_error`, otherwise a descriptive string. -/
inductive LogStatus where
  | num (n : Nat)
  | str (s : String)
deriving DecidableEq, Repr

/-- Observable events of a logical call, in order of occurrence. -/
inductive Event where
  | loggerStart (logId : Nat)
  | logSuccess (logId : Nat)
  | logError (logId : Nat) (status : LogStatus)
  | transportCall (req : FetchRequest)
  | onRequestCalled (attempt : Nat)
  | onResponseCalled (attempt : Nat)
  | onErrorCalled (attempt : Nat)
  | onRetryCalled (attempt : Nat)
  | sleepEvt (ms : Nat)
deriving DecidableEq, Repr

/-- The mutable world threaded through a logical call: the module-level
log-sequence counter, the number of transport invocations so far, the
event trace, and messages logged via `console.error`. -/
structure PState where
  devLogId : Nat := 0
  fetchCount : Nat := 0
  events : List Event := []
  consoleErrors : List String := []
deriving DecidableEq, Repr

/-- The initial state of a fresh logical call. -/
def PState.init : PState := {}

/-- Number of transport invocations recorded in an event trace. -/
def transportEventCount (events : List Event) : Nat :=
  events.countP (fun ev => match ev with | .transportCall _ => true | _ => false)

/-- The value returned by `typedFetch` inside the `Result`: raw text in
non-JSON mode, a JSON value otherwise. -/
inductive TFValue where
  | text (s : String)
  | json (v : JsVal)

/-- The `Result` returned by `typedFetch`. -/
inductive TFOutcome where
  | ok (v : TFValue)
  | err (e : TypedFetchError)

/-- Projection: the typed error of a settled call, if it failed with one. -/
def resultErrOf : Except JsErr TFOutcome → Option TypedFetchError
  | .ok (.err e) => some e
  | _ => none

/-- Projection: whether a settled call succeeded with a value. -/
def resultIsOk : Except JsErr TFOutcome → Bool
  | .ok (.ok _) => true
  | _ => false

/-! ## Pipeline building blocks -/

/-- `typeof pathOrUrl === 'string' ? new URL(pathOrUrl, host) : pathOrUrl`. -/
def resolveUrl (env : Env) (pathOrUrl : PathOrUrl) (host : Option String) :
    Except JsErr Url :=
  match pathOrUrl with
  | .str s => env.newURL s host
  | .url u => .ok u

/-- The plain path-parameter loop: skip `undefined` values, stringify the
rest and set them on the search params. -/
def applyPathParams (u : Url) : List (String × Option PathParamVal) → Url
  | [] => u
  | (_, none) :: rest => applyPathParams u rest
  | (k, some v) :: rest =>
    applyPathParams { u with searchParams := spSet u.searchParams k v.toJsString } rest

/-- The JSON path-parameter loop: skip `undefined` values, JSON-stringify
the rest; fail with the offending key if stringification is impossible. -/
def applyJsonPathParams (env : Env) (u : Url) :
    List (String × Option JsVal) → Except String Url
  | [] => .ok u
  | (_, none) :: rest => applyJsonPathParams env u rest
  | (k, some v) :: rest =>
    match env.safeJsonStringify v with
    | none => .error k
    | some s =>
      applyJsonPathParams env { u with searchParams := spSet u.searchParams k s } rest

/-- Assemble the final `Headers`: explicit headers in order, `null`
values dropped. -/
def buildFinalHeaders : Option ReqHeaders → HeadersMap
  | none => []
  | some hs =>
    hs.foldl (fun acc p => match p.2 with
      | none => acc
      | some v => headersSet acc p.1 v) []

/-- Expand one object-shaped form-data field into entries, or fail with
the field key when a nested object cannot be stringified. -/
def expandFDField (env : Env) (k : String) : FDValue → Except String (List (String × FDEntry))
  | .str s => .ok [(k, .str s)]
  | .file name => .ok [(k, .file name)]
  | .fileArr first rest =>
    .ok ((k, .file first) ::
      rest.filterMap (fun item => match item with
        | .file name => some (k, FDEntry.file name)
        | .nonFile _ => none))
  | .objVal v =>
    match env.safeJsonStringify v with
    | some s => .ok [(k, .str s)]
    | none => .error k

/-- Expand an object-shaped form-data spec (skipping `undefined` fields). -/
def expandFormData (env : Env) : List (String × Option FDValue) →
    Except String (List (String × FDEntry))
  | [] => .ok []
  | (_, none) :: rest => expandFormData env rest
  | (k, some v) :: rest =>
    match expandFDField env k v with
    | .error key => .error key
    | .ok entries =>
      match expandFormData env rest with
      | .error key => .error key
      | .ok more => .ok (entries ++ more)

/-- Build the request body and adjust the content-type header, mirroring
the source's `formData` / `payload` branches.  Fails with the offending
multipart key when a nested object cannot be stringified. -/
def buildBody (env : Env) (formData : Option FormDataArg) (payload : Option JsVal)
    (finalHeaders : HeadersMap) : Except String (Body × HeadersMap) :=
  match formData with
  | some (.inst entries) => .ok (.formBody entries, finalHeaders)
  | some (.spec fields) =>
    match expandFormData env fields with
    | .error key => .error key
    | .ok entries =>
      .ok (.formBody entries,
           headersDelete (headersDelete finalHeaders "Content-Type") "content-type")
  | none =>
    match payload with
    | some p =>
      let body := match env.safeJsonStringify p with
        | some s => Body.strBody s
        | none => Body.noBody
      let hs :=
        if !optStrTruthy (headersGet finalHeaders "Content-Type") &&
           !optStrTruthy (headersGet finalHeaders "content-type") then
          headersSet finalHeaders "Content-Type" "application/json"
        else finalHeaders
      .ok (body, hs)
    | none => .ok (.noBody, finalHeaders)

/-- The status argument of the attempt-end error log line. -/
def logErrStatus (e : TypedFetchError) : LogStatus :=
  if e.id = .request_error then .num e.status
  else if e.status ≠ 0 then .str (errIdToString e.id ++ "(" ++ toString e.status ++ ")")
  else .str (errIdToString e.id)

/-- `maxAttempts` of the current invocation: the memoized original
`maxRetries` if present, else the current `maxRetries`. -/
def maxAttemptsOf (retry : Option RetryOpts) : Nat :=
  match retry with
  | some r => r.origMaxRetries.getD r.maxRetries
  | none => 0

/-- `retry?.maxRetries ?? 0`. -/
def curMaxRetriesOf (retry : Option RetryOpts) : Nat :=
  match retry with
  | some r => r.maxRetries
  | none => 0

/-- The `new TypedFetchError({...error, ...getGenericErrorPayload(url),
retryAttempt: ...})` rebuild in `errorResult`: re-derives the echoed
request fields onto the error and attaches the retry-attempt
annotation. -/
def finalizeError (options : ApiCallParams) (url : Url)
    (maxAttempts nextRetryAttempt : Nat) (error : TypedFetchError) : TypedFetchError :=
  { error with
    payload := options.payload
    pathParams := options.pathParams
    jsonPathParams := options.jsonPathParams
    rawHeaders := options.headers
    formData := options.formData
    method := some options.method
    url := urlToString url
    retryAttempt :=
      if maxAttempts = 0 || nextRetryAttempt = 1 then none
      else some (nextRetryAttempt - 1) }

/-! ## The request pipeline -/

/-- Context carried from the pre-transport phase: the resolved URL, the
bound log closure (by id), the 0-indexed attempt number, and the built
request bundle. -/
structure AttemptCtx where
  url : Url
  logId : Option Nat
  retryAttempt : Nat
  req : FetchRequest

/-- Outcome of the pre-transport phase: a direct return (the
URL-resolution failure, which bypasses `errorResult`), a failure to be
finalized by `errorResult`, or a go-ahead to invoke the transport. -/
inductive PreOut where
  | exitDone (out : TFOutcome)
  | exitFail (url : Url) (logId : Option Nat) (e : TypedFetchError)
  | proceed (ctx : AttemptCtx)

/-- The error returned directly (without `errorResult`) when URL
resolution throws: `invalid_options` with status 0 and the echoed request
fields. -/
def urlFailureError (options : ApiCallParams) (pathOrUrl : PathOrUrl)
    (resErr : JsErr) : TypedFetchError :=
  { id := .invalid_options
    message := "Invalid url, path or host param: " ++ resErr.message
    status := 0
    causeMsg := some resErr.message
    payload := options.payload
    pathParams := options.pathParams
    jsonPathParams := options.jsonPathParams
    rawHeaders := options.headers
    formData := options.formData
    method := some options.method
    url :=
      if optStrTruthy options.host then
        options.host.getD "" ++ "/" ++ pathOrUrlText pathOrUrl
      else pathOrUrlText pathOrUrl }

/-- Bind the logger at attempt start (state part): bump the module-level
log id and record the attempt-start line when a logger is configured. -/
def logStartState (options : ApiCallParams) (st : PState) : PState :=
  if options.hasLogger then
    { st with devLogId := st.devLogId + 1
              events := st.events ++ [.loggerStart (st.devLogId + 1)] }
  else st

/-- Bind the logger at attempt start (closure part): the log id the
bound `logEnd` closures will report to, when a logger is configured. -/
def logStartId (options : ApiCallParams) (st : PState) : Option Nat :=
  if options.hasLogger then some (st.devLogId + 1) else none

/-- The path-shape validation block (runs only for string paths with
validation enabled): leading/trailing slash, host together with an
absolute URL, doubled slash in the resolved pathname. -/
def pathValidationError (options : ApiCallParams) (p : String) (url0 : Url) :
    Option TypedFetchError :=
  if options.disablePathValidation then none
  else if strStartsWith p "/" || strEndsWith p "/" then
    some { id := .invalid_options
           message := "Path \"" ++ p ++ "\" should not start or end with /" }
  else if optStrTruthy options.host && strContains p "://" then
    some { id := .invalid_options
           message := "Full url passed as string and host param should not be used together" }
  else if strContains url0.pathname "//" then
    some { id := .invalid_options
           message := "Path \"" ++ p ++ "\" should not contain //" }
  else none

/-- The attempt pipeline up to (but excluding) the transport invocation:
URL resolution, attempt-start logging, path validation, option
exclusivity checks, query parameters, headers, body and the `onRequest`
hook. -/
def preTransport (pathOrUrl : PathOrUrl) (options : ApiCallParams) (env : Env)
    (st : PState) : PState × PreOut :=
  let method := options.method
  let maxAttempts := maxAttemptsOf options.retry
  let retryAttempt := maxAttempts - curMaxRetriesOf options.retry
  match resolveUrl env pathOrUrl options.host with
  | .error resErr => (st, .exitDone (.err (urlFailureError options pathOrUrl resErr)))
  | .ok url0 =>
    let st1 := logStartState options st
    let logId := logStartId options st
    let pathErr : Option TypedFetchError :=
      match pathOrUrl with
      | .url _ => none
      | .str p => pathValidationError options p url0
    match pathErr with
    | some e => (st1, .exitFail url0 logId e)
    | none =>
      if options.payload.isSome && options.formData.isSome then
        (st1, .exitFail url0 logId
          { id := .invalid_options, message := "Cannot use both payload and multiPart" })
      else if (method = .GET || method = .DELETE) &&
              (options.payload.isSome || options.formData.isSome) then
        (st1, .exitFail url0 logId
          { id := .invalid_options
            message := "Payload or multiPart is not allowed for GET or DELETE requests" })
      else if options.jsonResponse = false && options.errorResponseSchema.isSome then
        (st1, .exitFail url0 logId
          { id := .invalid_options
            message := "errorResponseSchema is not allowed when jsonResponse is false" })
      else
        let url1 := match options.pathParams with
          | none => url0
          | some ps => applyPathParams url0 ps
        match applyJsonPathParams env url1 (options.jsonPathParams.getD []) with
        | .error key =>
          (st1, .exitFail url1 logId
            { id := .invalid_options, message := "Invalid JSON path parameter: " ++ key })
        | .ok url2 =>
          let finalHeaders0 := buildFinalHeaders options.headers
          match buildBody env options.formData options.payload finalHeaders0 with
          | .error key =>
            (st1, .exitFail url2 logId
              { id := .invalid_options
                message := "Could not stringify value for multipart key: " ++ key })
          | .ok (body, finalHeaders) =>
            let signalPresent := options.hasSignal ||
              (match options.timeoutMs with | some t => t ≠ 0 | none => false)
            let req : FetchRequest :=
              { url := url2, headers := finalHeaders, method := method
                body := body, hasSignal := signalPresent }
            let ctx : AttemptCtx :=
              { url := url2, logId := logId, retryAttempt := retryAttempt, req := req }
            match options.onRequest with
            | none => (st1, .proceed ctx)
            | some cb =>
              let st2 := { st1 with events := st1.events ++ [.onRequestCalled retryAttempt] }
              match cb retryAttempt with
              | .error e =>
                (st2, .exitFail url2 logId
                  { id := .hook_cb_error, causeMsg := some e.message, message := e.message })
              | .ok _ => (st2, .proceed ctx)

/-- Outcome of the post-transport phase: a settled return or a failure to
be finalized by `errorResult`. -/
inductive PostOut where
  | done (out : TFOutcome)
  | fail (e : TypedFetchError)

/-- Record the attempt-end success log line, when a logger is bound. -/
def logSuccessEvt (ctx : AttemptCtx) (st : PState) : PState :=
  match ctx.logId with
  | some i => { st with events := st.events ++ [.logSuccess i] }
  | none => st

/-- Run the `responseIsValid` predicate (resultified): a thrown error is
used as the validity value; any non-`true` value is the failure. -/
def responseValidityFailure (options : ApiCallParams) (resp : FetchResponse) :
    Option JsErr :=
  match options.responseIsValid with
  | none => none
  | some cb =>
    match cb { headers := resp.respHeaders, url := resp.respUrl
               hasInstance := resp.hasInstance } with
    | .error ex => some ex
    | .ok .isTrue => none
    | .ok (.errVal ex) => some ex

/-- Invoke the guarded `onResponse` hook (when configured): a thrown
exception is logged to the console, not propagated. -/
def onResponseState (options : ApiCallParams) (retryAttempt : Nat) (st : PState) : PState :=
  match options.onResponse with
  | none => st
  | some cb =>
    let stE := { st with events := st.events ++ [.onResponseCalled retryAttempt] }
    match cb retryAttempt with
    | .error ex => { stE with consoleErrors := stE.consoleErrors ++ [ex.message] }
    | .ok _ => stE

/-- The attempt pipeline from the transport outcome onwards: rejection
classification, body text, `responseIsValid`, `onResponse`, raw-text vs
JSON mode, error-status handling and schema validation.
`Except.error` models an exception escaping to the caller (only the
unguarded `getMessageFromRequestError` can produce one here). -/
def postTransport (options : ApiCallParams) (env : Env) (ctx : AttemptCtx)
    (outcome : FetchOutcome) (st : PState) : PState × Except JsErr PostOut :=
  match outcome with
  | .reject e =>
    if e.name = "TimeoutError" then
      (st, .ok (.fail { id := .timeout, message := e.message, causeMsg := some e.message }))
    else if e.name = "AbortError" then
      (st, .ok (.fail { id := .aborted, message := e.message, causeMsg := some e.message }))
    else
      (st, .ok (.fail { id := .network_or_cors_error, message := e.message
                        causeMsg := some e.message }))
  | .resolve resp =>
    match resp.getText with
    | .error e =>
      (st, .ok (.fail { id := .invalid_json, causeMsg := some e.message
                        message := e.message, status := resp.status }))
    | .ok text =>
      match responseValidityFailure options resp with
      | some ex =>
        (st, .ok (.fail { id := .invalid_response, causeMsg := some ex.message
                          message := ex.message, status := resp.status
                          response := some (.str text) }))
      | none =>
        let st2 := onResponseState options ctx.retryAttempt st
        if options.jsonResponse = false then
          if resp.ok = false then
            (st2, .ok (.fail { id := .request_error, message := resp.statusText
                               status := resp.status, response := some (.str text) }))
          else
            (logSuccessEvt ctx st2, .ok (.done (.ok (.text text))))
        else
          match env.jsonParse text with
          | .error pe =>
            (st2, .ok (.fail { id := .invalid_json, causeMsg := some pe.message
                               message := pe.message, response := some (.str text)
                               status := 400 }))
          | .ok parsed =>
            if resp.ok = false then
              match options.errorResponseSchema with
              | some sch =>
                (match standardResultValidate sch parsed with
                 | .error issues =>
                   (st2, .ok (.fail { id := .response_validation_error, status := resp.status
                                      response := some parsed
                                      message := renderIssuesMessage issues
                                      schemaIssues := some issues }))
                 | .ok v =>
                   match options.getMessageFromRequestError with
                   | some f =>
                     if v.truthy then
                       match f v with
                       | .error ex => (st2, .error ex)
                       | .ok msg =>
                         (st2, .ok (.fail { id := .request_error, message := msg
                                            status := resp.status, response := some parsed
                                            errResponse := some v }))
                     else
                       (st2, .ok (.fail { id := .request_error, message := resp.statusText
                                          status := resp.status, response := some parsed
                                          errResponse := some v }))
                   | none =>
                     (st2, .ok (.fail { id := .request_error, message := resp.statusText
                                        status := resp.status, response := some parsed
                                        errResponse := some v })))
              | none =>
                (st2, .ok (.fail { id := .request_error, message := resp.statusText
                                   status := resp.status, response := some parsed }))
            else
              match options.responseSchema with
              | none => (logSuccessEvt ctx st2, .ok (.done (.ok (.json parsed))))
              | some sch =>
                match standardResultValidate sch parsed with
                | .error issues =>
                  (st2, .ok (.fail
                    { id := .response_validation_error
                      errResponse :=
                        match options.errorResponseSchema with
                        | some esch =>
                          (match standardResultValidate esch parsed with
                           | .ok v => some v
                           | .error _ => none)
                        | none => none
                      response := some parsed, status := resp.status
                      message := renderIssuesMessage issues
                      schemaIssues := some issues }))
                | .ok v => (logSuccessEvt ctx st2, .ok (.done (.ok (.json v))))

/-- Exit of one full attempt: a settled return, or a failure (with the
context `errorResult` needs) to run the retry decision on. -/
inductive AttemptExit where
  | done (out : TFOutcome)
  | fail (url : Url) (logId : Option Nat) (e : TypedFetchError)

/-- The transport invocation (recorded in the state) followed by the
post-transport phase, a failure being paired with the context
`errorResult` needs. -/
def transportPhase (options : ApiCallParams) (env : Env) (ctx : AttemptCtx)
    (st1 : PState) : PState × Except JsErr AttemptExit :=
  let outcome := env.fetchOutcome st1.fetchCount ctx.req
  let st2 := { st1 with fetchCount := st1.fetchCount + 1
                        events := st1.events ++ [.transportCall ctx.req] }
  match postTransport options env ctx outcome st2 with
  | (st3, .error ex) => (st3, .error ex)
  | (st3, .ok (.done out)) => (st3, .ok (.done out))
  | (st3, .ok (.fail e)) => (st3, .ok (.fail ctx.url ctx.logId e))

/-- One full attempt: pre-transport phase, then (when reached) the
transport invocation and the post-transport phase. -/
def runAttempt (pathOrUrl : PathOrUrl) (options : ApiCallParams) (env : Env)
    (st : PState) : PState × Except JsErr AttemptExit :=
  match preTransport pathOrUrl options env st with
  | (st1, .exitDone out) => (st1, .ok (.done out))
  | (st1, .exitFail url logId e) => (st1, .ok (.fail url logId e))
  | (st1, .proceed ctx) => transportPhase options env ctx st1

/-- The decision `errorResult` reaches after finalizing an error. -/
inductive RetryDecision where
  | giveUp (finalError : TypedFetchError)
  | retryNow (finalError : TypedFetchError) (newOptions : ApiCallParams)

/-- Record the attempt-end error log line, when a logger is bound. -/
def logErrState (logId : Option Nat) (error : TypedFetchError) (st : PState) : PState :=
  match logId with
  | some i => { st with events := st.events ++ [.logError i (logErrStatus error)] }
  | none => st

/-- Invoke the guarded `onError` hook (when configured) before returning
a failure: a thrown exception is logged to the console, not propagated. -/
def giveUpState (options : ApiCallParams) (newError : TypedFetchError)
    (retryAttempt : Nat) (st : PState) : PState :=
  match options.onError with
  | none => st
  | some cb =>
    let stE := { st with events := st.events ++ [.onErrorCalled retryAttempt] }
    match cb newError retryAttempt with
    | .error ex => { stE with consoleErrors := stE.consoleErrors ++ [ex.message] }
    | .ok _ => stE

/-- The `errorResult` finalization routine: attempt-end error log line,
error rebuild with echoed fields and retry annotation, retry-eligibility
check (`condition` and a function-valued `delayMs` are called unguarded
and may throw), the retry sleep and guarded `onRetry`, or the guarded
`onError` hook before giving up. -/
def retryDecisionStep (options : ApiCallParams) (env : Env) (url : Url)
    (logId : Option Nat) (error : TypedFetchError) (st : PState) :
    PState × Except JsErr RetryDecision :=
  let st1 := logErrState logId error st
  let maxAttempts := maxAttemptsOf options.retry
  let retryAttempt := maxAttempts - curMaxRetriesOf options.retry
  let nextRetryAttempt := retryAttempt + 1
  let newError := finalizeError options url maxAttempts nextRetryAttempt error
  let canRetryErrorId := getCanRetryErrorId error.id
    (match options.retry with | some r => r.retryOnErrIds | none => none)
  let giveUpRes : PState × Except JsErr RetryDecision :=
    (giveUpState options newError retryAttempt st1, .ok (.giveUp newError))
  match options.retry with
  | none => giveUpRes
  | some r =>
    if r.maxRetries = 0 then giveUpRes
    else if !canRetryErrorId then giveUpRes
    else
      match (match r.condition with
             | none => Except.ok true
             | some c =>
               c { error := error, retryAttempt := nextRetryAttempt,
                   errorDuration := env.nowDuration }) with
      | .error ex => (st1, .error ex)
      | .ok false => giveUpRes
      | .ok true =>
        match (match r.delayMs with
               | .fixed n => Except.ok n
               | .fn f => f nextRetryAttempt) with
        | .error ex => (st1, .error ex)
        | .ok delay =>
          let st2 := { st1 with events := st1.events ++ [.sleepEvt delay] }
          let st3 := match r.onRetry with
            | none => st2
            | some cb =>
              let stE := { st2 with events := st2.events ++ [.onRetryCalled nextRetryAttempt] }
              match cb { error := error, retryAttempt := nextRetryAttempt,
                         errorDuration := env.nowDuration } with
              | .error ex => { stE with consoleErrors := stE.consoleErrors ++ [ex.message] }
              | .ok _ => stE
          (st3, .ok (.retryNow newError
            { options with retry := some { r with origMaxRetries := some maxAttempts
                                                  maxRetries := r.maxRetries - 1 } }))

/-- The recursive pipeline.  `fuel` equals the current `retry.maxRetries`
at every invocation (the top-level wrapper establishes this and the
retry branch maintains it, since a retry decrements `maxRetries` by one
and is only taken when it is positive), so the fuel-exhausted fallback is
never reached. -/
def typedFetchAux (fuel : Nat) (pathOrUrl : PathOrUrl) (options : ApiCallParams)
    (env : Env) (st : PState) : PState × Except JsErr TFOutcome :=
  match runAttempt pathOrUrl options env st with
  | (st1, .error ex) => (st1, .error ex)
  | (st1, .ok (.done out)) => (st1, .ok out)
  | (st1, .ok (.fail url logId err)) =>
    match retryDecisionStep options env url logId err st1 with
    | (st2, .error ex) => (st2, .error ex)
    | (st2, .ok (.giveUp finalError)) => (st2, .ok (.err finalError))
    | (st2, .ok (.retryNow finalError newOptions)) =>
      match fuel with
      | 0 => (st2, .ok (.err finalError))
      | f + 1 => typedFetchAux f pathOrUrl newOptions env st2

/-- `typedFetch`: run the pipeline with fuel equal to the configured
`maxRetries`. -/
def typedFetch (pathOrUrl : PathOrUrl) (options : ApiCallParams) (env : Env)
    (st : PState) : PState × Except JsErr TFOutcome :=
  typedFetchAux (curMaxRetriesOf options.retry) pathOrUrl options env st

/-! ## Concrete fixtures for claim instances -/

/-- A resolved test URL. -/
def apiUrl : Url := { protocol := "http:", host := "test.com", pathname := "/api" }

/-- A plain 200 response with an empty JSON object body. -/
def okResponse : FetchResponse :=
  { getText := .ok "{}", status := 200, statusText := "OK", ok := true }

/-- A benign environment: URL resolution succeeds, JSON round-trips, the
transport always resolves with `okResponse`. -/
def baseEnv : Env :=
  { newURL := fun _ _ => .ok apiUrl
    safeJsonStringify := fun _ => some "{}"
    jsonParse := fun _ => .ok (.obj [])
    fetchOutcome := fun _ _ => .resolve okResponse }

/-- A transport that always rejects with an abort-shaped fault. -/
def abortEnv : Env :=
  { baseEnv with
    fetchOutcome := fun _ _ =>
      .reject { name := "AbortError", message := "This operation was aborted" } }

/-- A transport that always rejects with a network-shaped fault. -/
def netFailEnv : Env :=
  { baseEnv with
    fetchOutcome := fun _ _ => .reject { name := "TypeError", message := "network failure" } }

/-- Number of retry sleeps recorded in an event trace. -/
def sleepCount (events : List Event) : Nat :=
  events.countP (fun ev => match ev with | .sleepEvt _ => true | _ => false)

/-- C1 instance: a retry policy that explicitly lists `aborted` as
retryable. -/
def c1RetryAborted : ApiCallParams :=
  { retry := some { maxRetries := 1, delayMs := .fixed 0, retryOnErrIds := some [.aborted] } }

/-- C1 instance: the run of `c1RetryAborted` against an always-aborting
transport. -/
def c1run : PState × Except JsErr TFOutcome :=
  typedFetch (.url apiUrl) c1RetryAborted abortEnv .init

/-- C1 instance: a retry policy that explicitly lists `invalid_options`
as retryable, used with a leading-slash path. -/
def c1RetryInvalid : ApiCallParams :=
  { host := some "http://test.com"
    retry := some { maxRetries := 1, delayMs := .fixed 0
                    retryOnErrIds := some [.invalid_options] } }

/-- C1 instance: the run of `c1RetryInvalid` on path `"/x"`. -/
def c1runB : PState × Except JsErr TFOutcome :=
  typedFetch (.str "/x") c1RetryInvalid baseEnv .init

/-- C2 counterexample instance: `maxRetries = 0` against an
always-failing transport. -/
def c2run0 : PState × Except JsErr TFOutcome :=
  typedFetch (.url apiUrl) { retry := some { maxRetries := 0, delayMs := .fixed 0 } }
    netFailEnv .init

/-- C3 counterexample environment: a 500 response whose body does not
parse as JSON. -/
def env500 : Env :=
  { baseEnv with
    jsonParse := fun _ => .error { name := "SyntaxError", message := "Unexpected token" }
    fetchOutcome := fun _ _ =>
      .resolve { getText := .ok "not json", status := 500
                 statusText := "Server Error", ok := false } }

/-- C3 counterexample instance. -/
def c3run : PState × Except JsErr TFOutcome :=
  typedFetch (.url apiUrl) {} env500 .init

/-- C4 counterexample environment: the platform URL constructor throws. -/
def badUrlEnv : Env :=
  { baseEnv with newURL := fun _ _ => .error { name := "TypeError", message := "Invalid URL" } }

/-- C4 counterexample options: logger, `onError` and an
`invalid_options`-retrying policy are all configured. -/
def c4opts : ApiCallParams :=
  { hasLogger := true
    onError := some (fun _ _ => .ok ())
    retry := some { maxRetries := 3, delayMs := .fixed 1
                    retryOnErrIds := some [.invalid_options] }
    pathParams := some [("a", some (.str "b"))] }

/-- C4 counterexample instance: a URL-resolution failure. -/
def c4run : PState × Except JsErr TFOutcome :=
  typedFetch (.str "relative") c4opts badUrlEnv .init

/-- C5 counterexample instance: a host together with an absolute URL
string path, but with path validation disabled. -/
def c5run : PState × Except JsErr TFOutcome :=
  typedFetch (.str "http://b.com/x")
    { host := some "http://a.com", disablePathValidation := true } baseEnv .init

/-- Repeated invocation of the `toJSON` method on an error object (for
the masking-idempotence claim): each call returns the receiver for the
next call. -/
def serializeLoop : Nat → TypedFetchError → TypedFetchError
  | 0, e => e
  | n + 1, e => serializeLoop n e.toJSON.2

/-- One issue line, written following the claim's wording: issues with a
path are prefixed by `$.` followed by the path segments joined by `.`,
numeric segments rendered as `[index]` and symbol segments as
`[symbol:<name>]`, followed by `: ` and the issue's message. -/
def issueLinePerClaim (issue : Issue) : String :=
  match issue.path with
  | none => issue.message
  | some segs =>
    "$." ++
      String.intercalate "."
        (segs.map (fun seg =>
          match seg with
          | .str s => s
          | .num n => "[" ++ toString n ++ "]"
          | .sym name => "[symbol:" ++ name ++ "]")) ++
      ": " ++ issue.message

/-- The full rendered message, written following the claim's wording:
all issue lines joined newline-separated in order. -/
def renderIssuesPerClaim (issues : List Issue) : String :=
  String.intercalate "\n" (issues.map issueLinePerClaim)

/-! ## C2 machinery: a generic always-failing-transport run -/

/-- The options of a (possibly re-invoked) C2 call: a retry policy with
the given remaining `maxRetries`, memoized original and fixed delay. -/
def c2opts (k : Nat) (orig : Option Nat) (d : Nat) : ApiCallParams :=
  { retry := some { maxRetries := k, origMaxRetries := orig, delayMs := .fixed d } }

/-- The environment of a C2 run: the transport always rejects with a
network-shaped fault carrying message `m`; the other collaborators are
arbitrary. -/
def c2env (nu : String → Option String → Except JsErr Url)
    (sj : JsVal → Option String) (jp : String → Except JsErr JsVal)
    (m : String) (nd : Nat) : Env :=
  { newURL := nu, safeJsonStringify := sj, jsonParse := jp
    fetchOutcome := fun _ _ => .reject { name := "TypeError", message := m }
    nowDuration := nd }

/-- The request each C2 attempt hands to the transport. -/
def c2req (u : Url) : FetchRequest :=
  { url := u, headers := [], method := .GET, body := .noBody, hasSignal := false }

/-- The event trace of a C2 run with `k` remaining retries: `k + 1`
transport invocations interleaved with `k` retry sleeps. -/
def c2trace (u : Url) (d : Nat) : Nat → List Event
  | 0 => [.transportCall (c2req u)]
  | k + 1 => .transportCall (c2req u) :: .sleepEvt d :: c2trace u d k

/-- The final error of a C2 run whose last attempt saw `maxAttempts = ma`
(the retry-annotation expression mirrors `errorResult`). -/
def c2errAux (m : String) (u : Url) (ma : Nat) : TypedFetchError :=
  { id := .network_or_cors_error
    message := m
    causeMsg := some m
    url := urlToString u
    method := some HttpMethod.GET
    retryAttempt := if ma = 0 || ma + 1 = 1 then none else some (ma + 1 - 1) }

/-! ## C10 fixtures: thrown exceptions in user callbacks -/

/-- C10: a `retry.condition` that throws. -/
def condThrowRun : PState × Except JsErr TFOutcome :=
  typedFetch (.url apiUrl)
    { retry := some { maxRetries := 1, delayMs := .fixed 0
                      condition := some (fun _ => .error { name := "Error", message := "cond boom" }) } }
    netFailEnv .init

/-- C10: a function-valued `retry.delayMs` that throws. -/
def delayThrowRun : PState × Except JsErr TFOutcome :=
  typedFetch (.url apiUrl)
    { retry := some { maxRetries := 1
                      delayMs := .fn (fun _ => .error { name := "Error", message := "delay boom" }) } }
    netFailEnv .init

/-- C10 environment: a 400 response with a parseable body. -/
def err400Env : Env :=
  { baseEnv with
    fetchOutcome := fun _ _ =>
      .resolve { getText := .ok "{}", status := 400, statusText := "Bad Request", ok := false } }

/-- C10: a `getMessageFromRequestError` that throws (the error schema
validates the body to a truthy value, so the extractor is invoked). -/
def getMsgThrowRun : PState × Except JsErr TFOutcome :=
  typedFetch (.url apiUrl)
    { errorResponseSchema := some { validate := fun _ => .value (.str "E") }
      getMessageFromRequestError := some (fun _ => .error { name := "Error", message := "msg boom" }) }
    err400Env .init

/-- C10 contrast: an `onRequest` hook that throws. -/
def onRequestThrowRun : PState × Except JsErr TFOutcome :=
  typedFetch (.url apiUrl)
    { onRequest := some (fun _ => .error { name := "Error", message := "req boom" }) }
    baseEnv .init

/-- C10 contrast: an `onResponse` hook that throws. -/
def onResponseThrowRun : PState × Except JsErr TFOutcome :=
  typedFetch (.url apiUrl)
    { onResponse := some (fun _ => .error { name := "Error", message := "resp boom" }) }
    baseEnv .init

/-- C10 contrast: an `onRetry` callback that throws. -/
def onRetryThrowRun : PState × Except JsErr TFOutcome :=
  typedFetch (.url apiUrl)
    { retry := some { maxRetries := 1, delayMs := .fixed 0
                      onRetry := some (fun _ => .error { name := "Error", message := "retry boom" }) } }
    netFailEnv .init

/-- C10 contrast: an `onError` hook that throws. -/
def onErrorThrowRun : PState × Except JsErr TFOutcome :=
  typedFetch (.url apiUrl)
    { onError := some (fun _ _ => .error { name := "Error", message := "err boom" }) }
    netFailEnv .init

/-- C7 witness instance: an error carrying one raw header. -/
def c7err : TypedFetchError :=
  { id := .invalid_options, message := "m"
    rawHeaders := some [("authorization", some "secret-token")] }

/-- A pre-transport exit that is an `invalid_options` failure (used to
characterize calls rejected before the transport is reached). -/
def PreOut.isInvalidExit : PreOut → Prop
  | .exitDone (.err e) => e.id = .invalid_options
  | .exitDone (.ok _) => False
  | .exitFail _ _ e => e.id = .invalid_options
  | .proceed _ => False

/-- What `errorResult` preserves about the error and the re-invocation
options: the finalized error keeps the original kind, and a re-invocation
only alters the retry bookkeeping (method, payload and form-data are
kept). -/
def decisionPreservesError (err : TypedFetchError) (o : ApiCallParams) :
    Except JsErr RetryDecision → Prop
  | .error _ => True
  | .ok (.giveUp e') => e'.id = err.id
  | .ok (.retryNow e' no) =>
    e'.id = err.id ∧ no.method = o.method ∧ no.payload = o.payload ∧
      no.formData = o.formData

/-- A settled call that did not succeed, and whose typed failure (if
any) is an `invalid_options` error (a propagated callback exception is
also allowed). -/
def outcomeIsInvalidFailure : Except JsErr TFOutcome → Prop
  | .ok (.ok _) => False
  | .ok (.err e) => e.id = .invalid_options
  | .error _ => True

/-- The request the transport receives for a JSON payload whose
serialization failed: `safeJsonStringify` returned `undefined`, so the
body is `undefined` (`noBody`), while `Content-Type: application/json`
is still set (the header branch does not depend on the serialization
outcome). -/
def c9req (o : ApiCallParams) (u : Url) : FetchRequest :=
  { url := u
    headers := headersSet (buildFinalHeaders o.headers) "Content-Type" "application/json"
    method := o.method
    body := .noBody
    hasSignal := o.hasSignal ||
      (match o.timeoutMs with | some t => t ≠ 0 | none => false) }

/-- A post-transport outcome that is neither an `invalid_options` failure
nor a settled typed error (the post-transport phase only settles with
successes; `invalid_options` arises before the transport only). -/
def PostOut.notInvalid : Except JsErr PostOut → Prop
  | .ok (.fail e) => e.id ≠ .invalid_options
  | .ok (.done (.err _)) => False
  | _ => True

/-- An attempt exit that is neither an `invalid_options` failure nor a
settled typed error. -/
def attemptNotInvalid : Except JsErr AttemptExit → Prop
  | .ok (.fail _ _ e) => e.id ≠ .invalid_options
  | .ok (.done (.err _)) => False
  | _ => True

/-- A settled call that is not an `invalid_options` failure. -/
def outcomeNotInvalid : Except JsErr TFOutcome → Prop
  | .ok (.err e) => e.id ≠ .invalid_options
  | _ => True

/-- C9 instance: a POST call with a JSON payload. -/
def c9opts : ApiCallParams := { method := .POST, payload := some (.obj []) }

/-- C9 instance: an environment whose `safeJsonStringify` always returns
`undefined` (a cyclic payload). -/
def c9env : Env := { baseEnv with safeJsonStringify := fun _ => none }

/-! # Theorems -/

/-- C1: the claim says `invalid_options` and `aborted` are never retried
regardless of policy.  Evaluating the code at a policy whose
`retryOnErrIds` explicitly lists them shows the opposite: an `aborted`
failure is retried (two transport invocations, final `retryAttempt` 1)
and an `invalid_options` path failure is retried (one retry sleep, final
`retryAttempt` 1).  This contradicts the repository's own documentation,
so the claim is right and the code is wrong. -/
theorem c1_retry_exclusion_code_behavior :
    c1run.1.fetchCount = 2 ∧
    (resultErrOf c1run.2).map (fun e => e.id) = some .aborted ∧
    (resultErrOf c1run.2).bind (fun e => e.retryAttempt) = some 1 ∧
    c1runB.1.fetchCount = 0 ∧
    sleepCount c1runB.1.events = 1 ∧
    (resultErrOf c1runB.2).map (fun e => e.id) = some .invalid_options ∧
    (resultErrOf c1runB.2).bind (fun e => e.retryAttempt) = some 1 :=
  ⟨rfl, rfl, rfl, rfl, rfl, rfl, rfl⟩

/-- C2 counterexample: with `maxRetries = 0` against an always-failing
retryable transport there is exactly one transport invocation, but the
final error's `retryAttempt` is `undefined`, not `0` as the claim
demands for every non-negative `N`. -/
theorem c2_zero_retries_counterexample :
    c2run0.1.fetchCount = 1 ∧
    (resultErrOf c2run0.2).map (fun e => e.retryAttempt) = some none ∧
    ¬(resultErrOf c2run0.2).bind (fun e => e.retryAttempt) = some 0 :=
  ⟨rfl, rfl, by decide⟩

/-- C3 counterexample: a 500 response whose body fails to parse yields an
`invalid_json` error with status 400 — the original error status is not
kept, contrary to the claim. -/
theorem c3_parse_failure_status_counterexample :
    (resultErrOf c3run.2).map (fun e => e.id) = some .invalid_json ∧
    (resultErrOf c3run.2).map (fun e => e.status) = some 400 ∧
    ¬(resultErrOf c3run.2).map (fun e => e.status) = some 500 :=
  ⟨rfl, rfl, by decide⟩

/-- C4 counterexample: a URL-resolution failure is returned directly:
although a logger, an `onError` hook and an `invalid_options`-retrying
policy are configured, the state is untouched (no attempt-end error log
line, no `onError` invocation, no retry), refuting the claim that every
failure exit passes through the shared error-finalization routine.  The
echoed request fields are still present on the error. -/
theorem c4_url_failure_bypasses_finalization :
    c4run.1 = PState.init ∧
    (resultErrOf c4run.2).map (fun e => e.id) = some .invalid_options ∧
    (resultErrOf c4run.2).map (fun e => e.pathParams) =
      some (some [("a", some (.str "b"))]) ∧
    (resultErrOf c4run.2).map (fun e => e.retryAttempt) = some none :=
  ⟨rfl, rfl, rfl, rfl⟩

/-- C5 counterexample: with path validation disabled, a host supplied
together with an absolute-URL string path is not rejected — the call
succeeds, refuting the claim that the ambiguous-authority rejection is
unconditional. -/
theorem c5_disabled_validation_counterexample :
    resultIsOk c5run.2 = true ∧ resultErrOf c5run.2 = none :=
  ⟨rfl, rfl⟩

/-- C10: `retry.condition`, a function-valued `retry.delayMs` and
`getMessageFromRequestError` are invoked unguarded — when they throw, the
exception propagates out of `typedFetch` as a rejection instead of a
`Result` failure — while throwing `onRequest`, `onResponse`, `onRetry`
and `onError` hooks are caught (the first becoming a `hook_cb_error`
failure, the others logged to the console with the call still settling). -/
theorem c10_unguarded_callbacks :
    condThrowRun.2 = .error { name := "Error", message := "cond boom" } ∧
    delayThrowRun.2 = .error { name := "Error", message := "delay boom" } ∧
    getMsgThrowRun.2 = .error { name := "Error", message := "msg boom" } ∧
    (resultErrOf onRequestThrowRun.2).map (fun e => e.id) = some .hook_cb_error ∧
    resultIsOk onResponseThrowRun.2 = true ∧
    onResponseThrowRun.1.consoleErrors = ["resp boom"] ∧
    (resultErrOf onRetryThrowRun.2).map (fun e => e.id) = some .network_or_cors_error ∧
    onRetryThrowRun.1.consoleErrors = ["retry boom"] ∧
    (resultErrOf onErrorThrowRun.2).map (fun e => e.id) = some .network_or_cors_error ∧
    onErrorThrowRun.1.consoleErrors = ["err boom"] :=
  ⟨rfl, rfl, rfl, rfl, rfl, rfl, rfl, rfl, rfl, rfl⟩

/-- Repeated `toJSON` calls return the receiver unchanged. -/
theorem serializeLoop_id (n : Nat) (e : TypedFetchError) : serializeLoop n e = e := by
  induction n generalizing e with
  | zero => rfl
  | succ n ih => exact ih e

/-- C7: for every non-null header value `v`, the `headers` accessor
masks it (first `min(4, ceil(len/2))` characters kept, the remaining
characters each replaced by `*`), while `getUnmaskedHeaders` still
returns the original raw headers no matter how many times `toJSON` (and
with it the masking accessor) has been invoked. -/
theorem c7_header_masking (e : TypedFetchError) (hs : ReqHeaders) (k v : String)
    (n : Nat) (hraw : e.rawHeaders = some hs) (hmem : (k, some v) ∈ hs) :
    (∃ ms, e.headers = some ms ∧
      (k, String.mk (v.data.take (min 4 ((v.data.length + 1) / 2)) ++
            List.replicate (v.data.length - min 4 ((v.data.length + 1) / 2)) '*')) ∈ ms) ∧
    (serializeLoop n e).getUnmaskedHeaders = some hs := by
  constructor
  · have hmask :
        (k, maskHeaderValue v) ∈
          hs.filterMap (fun p => p.2.map (fun s => (p.1, maskHeaderValue s))) :=
      List.mem_filterMap.mpr ⟨(k, some v), hmem, rfl⟩
    have hne : hs.filterMap (fun p => p.2.map (fun s => (p.1, maskHeaderValue s))) ≠ [] :=
      List.ne_nil_of_mem hmask
    have hie :
        (hs.filterMap (fun p => p.2.map (fun s => (p.1, maskHeaderValue s)))).isEmpty
          = false := by
      cases hc : hs.filterMap (fun p => p.2.map (fun s => (p.1, maskHeaderValue s))) with
      | nil => exact absurd hc hne
      | cons a l => rfl
    refine ⟨hs.filterMap (fun p => p.2.map (fun s => (p.1, maskHeaderValue s))), ?_, hmask⟩
    unfold TypedFetchError.headers getMaskedHeaders
    rw [hraw]
    simp only [hie, Bool.false_eq_true, if_false]
  · rw [serializeLoop_id]
    exact hraw

/-- C7 witness: a concrete error with raw header value `secret-token`
(length 12, so 4 characters kept and 8 masked), serialized five times. -/
theorem c7_header_masking_witness :
    (∃ ms, c7err.headers = some ms ∧
      ("authorization",
        String.mk ("secret-token".data.take (min 4 (("secret-token".data.length + 1) / 2)) ++
          List.replicate ("secret-token".data.length -
            min 4 (("secret-token".data.length + 1) / 2)) '*')) ∈ ms) ∧
    (serializeLoop 5 c7err).getUnmaskedHeaders =
      some [("authorization", some "secret-token")] :=
  c7_header_masking c7err [("authorization", some "secret-token")]
    "authorization" "secret-token" 5 rfl (List.mem_singleton.mpr rfl)

/-- C8: a schema whose validation entry point returns a pending
(`Promise`) result fails with exactly one synthetic issue stating async
validation is not supported, and the rendered message of any issue list
follows the claimed `$.`-path-qualified newline-joined format. -/
theorem c8_validation_adapter :
    (∀ (schema : Schema) (input : JsVal), schema.validate input = .pending →
      standardResultValidate schema input =
        .error [{ path := none, message := "Async validation not supported" }]) ∧
    (∀ issues : List Issue, renderIssuesMessage issues = renderIssuesPerClaim issues) := by
  constructor
  · intro schema input h
    unfold standardResultValidate
    rw [h]
  · intro issues
    unfold renderIssuesMessage renderIssuesPerClaim
    congr 1
    apply List.map_congr_left
    intro i _
    unfold issueLinePerClaim
    cases hp : i.path with
    | none => rfl
    | some segs =>
      have hseg : ∀ seg : PathSegment,
          getPathSegmentString seg =
            (match seg with
             | .str s => s
             | .num n => "[" ++ toString n ++ "]"
             | .sym name => "[symbol:" ++ name ++ "]") := by
        intro seg; cases seg <;> rfl
      simp only [List.map_congr_left (fun seg _ => hseg seg)]

/-- C8 witness: a concrete pending schema and a concrete issue list with
string, numeric and symbol path segments. -/
theorem c8_validation_adapter_witness :
    standardResultValidate { validate := fun _ => ValidateOutcome.pending } JsVal.null =
      .error [{ path := none, message := "Async validation not supported" }] ∧
    renderIssuesMessage
        [{ path := some [.str "user", .num 0, .sym "Symbol(id)"], message := "bad" },
         { path := none, message := "oops" }] =
      renderIssuesPerClaim
        [{ path := some [.str "user", .num 0, .sym "Symbol(id)"], message := "bad" },
         { path := none, message := "oops" }] :=
  ⟨c8_validation_adapter.1 { validate := fun _ => ValidateOutcome.pending } JsVal.null rfl,
   c8_validation_adapter.2 _⟩

/-- C3 (amended): in JSON mode a response body that fails to parse as
JSON always finalizes as `invalid_json` with status 400 — regardless of
the underlying HTTP status (the original status is not kept even when it
was an error status). -/
theorem c3_invalid_json_status_always_400
    (nu : String → Option String → Except JsErr Url) (sj : JsVal → Option String)
    (pe : JsErr) (txt : String) (s : Nat) (stx : String) (okb : Bool)
    (rh : HeadersMap) (ru : String) (hi : Bool) (nd : Nat) (u : Url) (st : PState) :
    (resultErrOf (typedFetch (.url u) {}
        { newURL := nu, safeJsonStringify := sj, jsonParse := fun _ => .error pe
          fetchOutcome := fun _ _ => .resolve
            { getText := .ok txt, status := s, statusText := stx, ok := okb
              respHeaders := rh, respUrl := ru, hasInstance := hi }
          nowDuration := nd } st).2).map (fun e => (e.id, e.status)) =
      some (.invalid_json, 400) ∧
    (typedFetch (.url u) {}
        { newURL := nu, safeJsonStringify := sj, jsonParse := fun _ => .error pe
          fetchOutcome := fun _ _ => .resolve
            { getText := .ok txt, status := s, statusText := stx, ok := okb
              respHeaders := rh, respUrl := ru, hasInstance := hi }
          nowDuration := nd } st).1.fetchCount = st.fetchCount + 1 :=
  ⟨rfl, rfl⟩

/-- Transport-invocation counting distributes over trace concatenation. -/
theorem transportEventCount_append (l1 l2 : List Event) :
    transportEventCount (l1 ++ l2) = transportEventCount l1 + transportEventCount l2 :=
  List.countP_append _ _ _

/-- A C2 trace with `k` remaining retries holds `k + 1` transport
invocations. -/
theorem c2trace_transport_count (u : Url) (d : Nat) :
    ∀ k, transportEventCount (c2trace u d k) = k + 1 := by
  intro k
  induction k with
  | zero => rfl
  | succ k ih =>
    simp [c2trace, transportEventCount, List.countP_cons] at ih ⊢
    omega

/-- The C2 run, characterized for every remaining-retries count `k` and
memoized original `orig`: each level makes one transport call, sleeps and
re-invokes itself with a decremented counter and memoized original, and
the final error's annotation is computed from the original count. -/
theorem c2_aux (nu : String → Option String → Except JsErr Url)
    (sj : JsVal → Option String) (jp : String → Except JsErr JsVal)
    (m : String) (nd d : Nat) (u : Url) :
    ∀ (k : Nat) (orig : Option Nat) (st : PState),
      typedFetchAux k (.url u) (c2opts k orig d) (c2env nu sj jp m nd) st =
        ({ st with fetchCount := st.fetchCount + (k + 1),
                   events := st.events ++ c2trace u d k },
         .ok (.err (c2errAux m u (orig.getD k)))) := by
  intro k
  induction k with
  | zero => intro orig st; rfl
  | succ k ih =>
    intro orig st
    have h1 : typedFetchAux (k + 1) (.url u) (c2opts (k + 1) orig d) (c2env nu sj jp m nd) st =
        typedFetchAux k (.url u) (c2opts k (some (orig.getD (k + 1))) d) (c2env nu sj jp m nd)
          { st with fetchCount := st.fetchCount + 1,
                    events := (st.events ++ [.transportCall (c2req u)]) ++ [.sleepEvt d] } := rfl
    rw [h1, ih]
    simp [c2trace, List.append_assoc]
    omega

/-- C2 (amended): with `retry.maxRetries = N` against a transport that
always fails with a retryable kind, exactly `N + 1` transport invocations
occur (both by invocation count and by event trace), and the final
error's `retryAttempt` is `N` when `N ≥ 1` and `undefined` when `N = 0`
(the original `N` being preserved via the decremented counter plus
memoized original). -/
theorem c2_retry_count (nu : String → Option String → Except JsErr Url)
    (sj : JsVal → Option String) (jp : String → Except JsErr JsVal)
    (m : String) (nd d N : Nat) (u : Url) (st : PState) :
    (typedFetch (.url u) { retry := some { maxRetries := N, delayMs := .fixed d } }
        (c2env nu sj jp m nd) st).1.fetchCount = st.fetchCount + (N + 1) ∧
    transportEventCount (typedFetch (.url u)
        { retry := some { maxRetries := N, delayMs := .fixed d } }
        (c2env nu sj jp m nd) st).1.events =
      transportEventCount st.events + (N + 1) ∧
    (resultErrOf (typedFetch (.url u)
        { retry := some { maxRetries := N, delayMs := .fixed d } }
        (c2env nu sj jp m nd) st).2).map (fun e => e.retryAttempt) =
      some (if N = 0 then none else some N) := by
  have he : typedFetch (.url u) { retry := some { maxRetries := N, delayMs := .fixed d } }
      (c2env nu sj jp m nd) st =
      typedFetchAux N (.url u) (c2opts N none d) (c2env nu sj jp m nd) st := rfl
  rw [he, c2_aux nu sj jp m nd d u N none st]
  refine ⟨rfl, ?_, ?_⟩
  · simp [transportEventCount_append, c2trace_transport_count]
  · simp only [resultErrOf, c2errAux, Option.getD, Option.map_some]
    by_cases hN : N = 0
    · simp [hN]
    · have h1 : ¬(N + 1 = 1) := by omega
      simp [hN, h1]

/-- The attempt-end error log event recorded by `logErrState`. -/
theorem logErrState_events (lid : Option Nat) (e : TypedFetchError) (st : PState) :
    (logErrState lid e st).events =
      st.events ++
        (match lid with | some i => [Event.logError i (logErrStatus e)] | none => []) := by
  cases lid <;> simp [logErrState]

/-- `logErrState` does not touch the transport-invocation count. -/
theorem logErrState_fetchCount (lid : Option Nat) (e : TypedFetchError) (st : PState) :
    (logErrState lid e st).fetchCount = st.fetchCount := by
  cases lid <;> rfl

/-- The `onError` event recorded by `giveUpState`. -/
theorem giveUpState_events (o : ApiCallParams) (ne : TypedFetchError) (ra : Nat)
    (st : PState) :
    (giveUpState o ne ra st).events =
      st.events ++
        (match o.onError with | some _ => [Event.onErrorCalled ra] | none => []) := by
  unfold giveUpState
  cases ho : o.onError with
  | none => simp
  | some cb => cases hcb : cb ne ra <;> simp [hcb]

/-- `giveUpState` does not touch the transport-invocation count. -/
theorem giveUpState_fetchCount (o : ApiCallParams) (ne : TypedFetchError) (ra : Nat)
    (st : PState) :
    (giveUpState o ne ra st).fetchCount = st.fetchCount := by
  unfold giveUpState
  cases ho : o.onError with
  | none => rfl
  | some cb => cases hcb : cb ne ra <;> simp [hcb]

/-- C4 (amended): every failure exit except a URL-resolution failure
passes through the shared `errorResult` finalization: the returned error
carries the echoed request fields and the retry annotation, the
attempt-end error log line is emitted when a logger is bound, and the
retry decision (here: ineligible, so the guarded `onError` hook runs) is
entered before the failure is returned.  A URL-resolution failure instead
returns directly: the error still carries the echoed fields and status 0,
but the state is untouched (no log line, no retry decision, no
`onError`). -/
theorem c4_error_finalization (p : PathOrUrl) (o : ApiCallParams) (env : Env) (st : PState) :
    (∀ ex, resolveUrl env p o.host = .error ex →
      typedFetch p o env st = (st, .ok (.err (urlFailureError o p ex))) ∧
      (urlFailureError o p ex).id = .invalid_options ∧
      (urlFailureError o p ex).status = 0 ∧
      (urlFailureError o p ex).payload = o.payload ∧
      (urlFailureError o p ex).pathParams = o.pathParams ∧
      (urlFailureError o p ex).jsonPathParams = o.jsonPathParams ∧
      (urlFailureError o p ex).rawHeaders = o.headers ∧
      (urlFailureError o p ex).formData = o.formData ∧
      (urlFailureError o p ex).method = some o.method ∧
      (urlFailureError o p ex).retryAttempt = none) ∧
    (o.retry = none →
      ∀ st1 url logId err, runAttempt p o env st = (st1, .ok (.fail url logId err)) →
        typedFetch p o env st =
          (giveUpState o (finalizeError o url 0 1 err) 0 (logErrState logId err st1),
           .ok (.err (finalizeError o url 0 1 err))) ∧
        (giveUpState o (finalizeError o url 0 1 err) 0
            (logErrState logId err st1)).fetchCount = st1.fetchCount ∧
        (∀ i, logId = some i →
          Event.logError i (logErrStatus err) ∈
            (giveUpState o (finalizeError o url 0 1 err) 0
              (logErrState logId err st1)).events) ∧
        (o.onError.isSome = true →
          Event.onErrorCalled 0 ∈
            (giveUpState o (finalizeError o url 0 1 err) 0
              (logErrState logId err st1)).events) ∧
        (finalizeError o url 0 1 err).payload = o.payload ∧
        (finalizeError o url 0 1 err).pathParams = o.pathParams ∧
        (finalizeError o url 0 1 err).jsonPathParams = o.jsonPathParams ∧
        (finalizeError o url 0 1 err).rawHeaders = o.headers ∧
        (finalizeError o url 0 1 err).formData = o.formData ∧
        (finalizeError o url 0 1 err).method = some o.method ∧
        (finalizeError o url 0 1 err).url = urlToString url ∧
        (finalizeError o url 0 1 err).retryAttempt = none) := by
  constructor
  · intro ex hres
    have hpre : preTransport p o env st = (st, .exitDone (.err (urlFailureError o p ex))) := by
      unfold preTransport
      rw [hres]
    have hrun : runAttempt p o env st = (st, .ok (.done (.err (urlFailureError o p ex)))) := by
      unfold runAttempt
      rw [hpre]
    have hmain : typedFetch p o env st = (st, .ok (.err (urlFailureError o p ex))) := by
      unfold typedFetch typedFetchAux
      rw [hrun]
    exact ⟨hmain, rfl, rfl, rfl, rfl, rfl, rfl, rfl, rfl, rfl⟩
  · intro hretry st1 url logId err hrun
    have hdec : retryDecisionStep o env url logId err st1 =
        (giveUpState o (finalizeError o url 0 1 err) 0 (logErrState logId err st1),
         .ok (.giveUp (finalizeError o url 0 1 err))) := by
      unfold retryDecisionStep
      rw [hretry]
      rfl
    have hmain : typedFetch p o env st =
        (giveUpState o (finalizeError o url 0 1 err) 0 (logErrState logId err st1),
         .ok (.err (finalizeError o url 0 1 err))) := by
      unfold typedFetch typedFetchAux
      simp only [hrun, hdec]
    refine ⟨hmain, ?_, ?_, ?_, rfl, rfl, rfl, rfl, rfl, rfl, rfl, rfl⟩
    · rw [giveUpState_fetchCount, logErrState_fetchCount]
    · intro i hi
      subst hi
      simp [giveUpState_events, logErrState_events]
    · intro hOE
      simp [giveUpState_events, logErrState_events]
      rcases horig : o.onError with - | cb
      · rw [horig] at hOE; simp at hOE
      · simp [horig]

/-- C4 witness: a concrete URL-resolution failure (direct return with
state untouched) and a concrete path-shape failure (finalized through
`errorResult`). -/
theorem c4_error_finalization_witness :
    typedFetch (.str "x") {} badUrlEnv .init =
      (.init, .ok (.err (urlFailureError {} (.str "x")
        { name := "TypeError", message := "Invalid URL" }))) ∧
    typedFetch (.str "/x") { host := some "http://test.com" } baseEnv .init =
      (giveUpState { host := some "http://test.com" }
         (finalizeError { host := some "http://test.com" } apiUrl 0 1
           { id := .invalid_options
             message := "Path \"/x\" should not start or end with /" }) 0
         (logErrState none
           { id := .invalid_options
             message := "Path \"/x\" should not start or end with /" } .init),
       .ok (.err (finalizeError { host := some "http://test.com" } apiUrl 0 1
           { id := .invalid_options
             message := "Path \"/x\" should not start or end with /" }))) :=
  ⟨((c4_error_finalization (.str "x") {} badUrlEnv .init).1
      { name := "TypeError", message := "Invalid URL" } rfl).1,
   ((c4_error_finalization (.str "/x") { host := some "http://test.com" } baseEnv .init).2
      rfl .init apiUrl none
      { id := .invalid_options
        message := "Path \"/x\" should not start or end with /" } rfl).1⟩

/-- Any retry decision on an error whose kind is not in the effective
retryable set gives up: log line, finalized error, guarded `onError`. -/
theorem retryDecision_giveUp (o : ApiCallParams) (env : Env) (url : Url)
    (lid : Option Nat) (err : TypedFetchError) (st : PState)
    (h : getCanRetryErrorId err.id
        (match o.retry with | some r => r.retryOnErrIds | none => none) = false) :
    retryDecisionStep o env url lid err st =
      (giveUpState o
         (finalizeError o url (maxAttemptsOf o.retry)
           (maxAttemptsOf o.retry - curMaxRetriesOf o.retry + 1) err)
         (maxAttemptsOf o.retry - curMaxRetriesOf o.retry)
         (logErrState lid err st),
       .ok (.giveUp (finalizeError o url (maxAttemptsOf o.retry)
           (maxAttemptsOf o.retry - curMaxRetriesOf o.retry + 1) err))) := by
  unfold retryDecisionStep
  rcases hr : o.retry with - | r
  · rfl
  · rw [hr] at h
    by_cases hm : r.maxRetries = 0
    · simp [hm, hr]
    · simp [hm, hr, h]

/-- C5 (amended): the ambiguous-authority rejection applies only when
path validation is enabled: with validation enabled, a truthy host
together with a string path containing `://` (that passes the
leading/trailing-slash checks and resolves) fails with `invalid_options`
and its dedicated message, with no transport invocation; with
`disablePathValidation` the check is skipped (see the counterexample). -/
theorem c5_host_with_absolute_path (o : ApiCallParams) (env : Env) (p : String)
    (st : PState) (u0 : Url)
    (hdis : o.disablePathValidation = false)
    (hhost : optStrTruthy o.host = true)
    (habs : strContains p "://" = true)
    (hs1 : strStartsWith p "/" = false)
    (hs2 : strEndsWith p "/" = false)
    (hurl : env.newURL p o.host = .ok u0)
    (hretry : getCanRetryErrorId .invalid_options
        (match o.retry with | some r => r.retryOnErrIds | none => none) = false) :
    ∃ stF e, typedFetch (.str p) o env st = (stF, .ok (.err e)) ∧
      e.id = .invalid_options ∧
      e.message = "Full url passed as string and host param should not be used together" ∧
      stF.fetchCount = st.fetchCount ∧
      transportEventCount stF.events = transportEventCount st.events := by
  have hres : resolveUrl env (.str p) o.host = .ok u0 := hurl
  cases hlog : o.hasLogger with
  | false =>
    have hpre : preTransport (.str p) o env st =
        (st, .exitFail u0 none
          { id := .invalid_options
            message := "Full url passed as string and host param should not be used together" }) := by
      unfold preTransport
      rw [hres]
      simp [pathValidationError, logStartState, logStartId, hdis, hs1, hs2, hhost, habs, hlog]
    have hrun : runAttempt (.str p) o env st =
        (st, .ok (.fail u0 none
          { id := .invalid_options
            message := "Full url passed as string and host param should not be used together" })) := by
      unfold runAttempt
      rw [hpre]
    have hdec := retryDecision_giveUp o env u0 none
      { id := .invalid_options
        message := "Full url passed as string and host param should not be used together" }
      st hretry
    have hmain : typedFetch (.str p) o env st =
        (giveUpState o
           (finalizeError o u0 (maxAttemptsOf o.retry)
             (maxAttemptsOf o.retry - curMaxRetriesOf o.retry + 1)
             { id := .invalid_options
               message := "Full url passed as string and host param should not be used together" })
           (maxAttemptsOf o.retry - curMaxRetriesOf o.retry)
           (logErrState none
             { id := .invalid_options
               message := "Full url passed as string and host param should not be used together" }
             st),
         .ok (.err (finalizeError o u0 (maxAttemptsOf o.retry)
             (maxAttemptsOf o.retry - curMaxRetriesOf o.retry + 1)
             { id := .invalid_options
               message := "Full url passed as string and host param should not be used together" }))) := by
      unfold typedFetch typedFetchAux
      simp only [hrun, hdec]
    refine ⟨_, _, hmain, rfl, rfl, ?_, ?_⟩
    · rw [giveUpState_fetchCount, logErrState_fetchCount]
    · simp [giveUpState_events, logErrState_events, transportEventCount_append]
      rcases o.onError with - | cb <;> simp [transportEventCount]
  | true =>
    have hpre : preTransport (.str p) o env st =
        ({ st with devLogId := st.devLogId + 1
                   events := st.events ++ [.loggerStart (st.devLogId + 1)] },
         .exitFail u0 (some (st.devLogId + 1))
          { id := .invalid_options
            message := "Full url passed as string and host param should not be used together" }) := by
      unfold preTransport
      rw [hres]
      simp [pathValidationError, logStartState, logStartId, hdis, hs1, hs2, hhost, habs, hlog]
    have hrun : runAttempt (.str p) o env st =
        ({ st with devLogId := st.devLogId + 1
                   events := st.events ++ [.loggerStart (st.devLogId + 1)] },
         .ok (.fail u0 (some (st.devLogId + 1))
          { id := .invalid_options
            message := "Full url passed as string and host param should not be used together" })) := by
      unfold runAttempt
      rw [hpre]
    have hdec := retryDecision_giveUp o env u0 (some (st.devLogId + 1))
      { id := .invalid_options
        message := "Full url passed as string and host param should not be used together" }
      { st with devLogId := st.devLogId + 1
                events := st.events ++ [.loggerStart (st.devLogId + 1)] }
      hretry
    have hmain : typedFetch (.str p) o env st =
        (giveUpState o
           (finalizeError o u0 (maxAttemptsOf o.retry)
             (maxAttemptsOf o.retry - curMaxRetriesOf o.retry + 1)
             { id := .invalid_options
               message := "Full url passed as string and host param should not be used together" })
           (maxAttemptsOf o.retry - curMaxRetriesOf o.retry)
           (logErrState (some (st.devLogId + 1))
             { id := .invalid_options
               message := "Full url passed as string and host param should not be used together" }
             { st with devLogId := st.devLogId + 1
                       events := st.events ++ [.loggerStart (st.devLogId + 1)] }),
         .ok (.err (finalizeError o u0 (maxAttemptsOf o.retry)
             (maxAttemptsOf o.retry - curMaxRetriesOf o.retry + 1)
             { id := .invalid_options
               message := "Full url passed as string and host param should not be used together" }))) := by
      unfold typedFetch typedFetchAux
      simp only [hrun, hdec]
    refine ⟨_, _, hmain, rfl, rfl, ?_, ?_⟩
    · rw [giveUpState_fetchCount, logErrState_fetchCount]
    · simp [giveUpState_events, logErrState_events, transportEventCount_append]
      rcases o.onError with - | cb <;> simp [transportEventCount]

/-- C5 witness: host `http://a.com` with string path `http://b.com/x`
and path validation enabled. -/
theorem c5_host_with_absolute_path_witness :
    ∃ stF e, typedFetch (.str "http://b.com/x") { host := some "http://a.com" }
        baseEnv .init = (stF, .ok (.err e)) ∧
      e.id = .invalid_options ∧
      e.message = "Full url passed as string and host param should not be used together" ∧
      stF.fetchCount = PState.init.fetchCount ∧
      transportEventCount stF.events = transportEventCount PState.init.events :=
  c5_host_with_absolute_path { host := some "http://a.com" } baseEnv "http://b.com/x"
    .init apiUrl rfl rfl rfl rfl rfl rfl rfl


/-- Attempt-start logging does not touch the transport count. -/
theorem logStartState_fetchCount (o : ApiCallParams) (st : PState) :
    (logStartState o st).fetchCount = st.fetchCount := by
  unfold logStartState; split <;> rfl

/-- The error log line is not a transport invocation. -/
theorem logErrState_transportCount (lid : Option Nat) (e : TypedFetchError) (st : PState) :
    transportEventCount (logErrState lid e st).events = transportEventCount st.events := by
  cases lid <;>
    simp [logErrState, transportEventCount, List.countP_append, List.countP_cons]

/-- The `onError` hook is not a transport invocation. -/
theorem giveUpState_transportCount (o : ApiCallParams) (ne : TypedFetchError) (ra : Nat)
    (st : PState) :
    transportEventCount (giveUpState o ne ra st).events = transportEventCount st.events := by
  unfold giveUpState
  cases ho : o.onError with
  | none => rfl
  | some cb =>
    cases hcb : cb ne ra <;>
      simp [hcb, transportEventCount, List.countP_append, List.countP_cons]

/-- The pre-transport phase performs no transport invocation. -/
theorem preTransport_fetchCount (p : PathOrUrl) (o : ApiCallParams) (env : Env) (st : PState) :
    (preTransport p o env st).1.fetchCount = st.fetchCount := by
  unfold preTransport
  repeat' (first | split | simp [logStartState])

/-- The pre-transport phase records no transport event. -/
theorem preTransport_transportCount (p : PathOrUrl) (o : ApiCallParams) (env : Env)
    (st : PState) :
    transportEventCount (preTransport p o env st).1.events = transportEventCount st.events := by
  unfold preTransport
  repeat' (first
    | split
    | simp [logStartState, transportEventCount, List.countP_append, List.countP_cons])

/-- Every path-shape rejection is an `invalid_options` error. -/
theorem pathValidationError_id (o : ApiCallParams) (ps : String) (u0 : Url)
    (e : TypedFetchError) (h : pathValidationError o ps u0 = some e) :
    e.id = .invalid_options := by
  unfold pathValidationError at h
  repeat' split at h
  all_goals (cases h <;> rfl)

/-- With a payload or form-data spec on a GET or DELETE call, the
pre-transport phase always exits with an `invalid_options` failure
(never proceeding to the transport). -/
theorem preTransport_bodyless (po : PathOrUrl) (o : ApiCallParams) (env : Env) (st : PState)
    (hm : o.method = .GET ∨ o.method = .DELETE)
    (hb : o.payload.isSome = true ∨ o.formData.isSome = true) :
    (preTransport po o env st).2.isInvalidExit := by
  unfold preTransport
  cases hres : resolveUrl env po o.host with
  | error ex => exact rfl
  | ok url0 =>
    cases po with
    | url u =>
      rcases hm with hm | hm <;> rcases hb with hb | hb <;>
        by_cases hpf : (o.payload.isSome && o.formData.isSome) = true <;>
          simp_all [PreOut.isInvalidExit]
    | str ps =>
      cases hpv : pathValidationError o ps url0 with
      | some e =>
        have hid := pathValidationError_id o ps url0 e hpv
        simp_all [PreOut.isInvalidExit]
      | none =>
        rcases hm with hm | hm <;> rcases hb with hb | hb <;>
          by_cases hpf : (o.payload.isSome && o.formData.isSome) = true <;>
            simp_all [PreOut.isInvalidExit]

/-- The retry decision performs no transport invocation. -/
theorem retryDecisionStep_fetchCount (o : ApiCallParams) (env : Env) (url : Url)
    (lid : Option Nat) (err : TypedFetchError) (st : PState) :
    (retryDecisionStep o env url lid err st).1.fetchCount = st.fetchCount := by
  unfold retryDecisionStep
  repeat' (first | split | simp [giveUpState, logErrState])

/-- The retry decision records no transport event. -/
theorem retryDecisionStep_transportCount (o : ApiCallParams) (env : Env) (url : Url)
    (lid : Option Nat) (err : TypedFetchError) (st : PState) :
    transportEventCount (retryDecisionStep o env url lid err st).1.events =
      transportEventCount st.events := by
  unfold retryDecisionStep
  repeat' (first
    | split
    | simp [giveUpState, logErrState, transportEventCount, List.countP_append,
        List.countP_cons])

/-- The retry decision preserves the error kind and, on a re-invocation,
the method, payload and form-data options. -/
theorem retryDecisionStep_preserves (o : ApiCallParams) (env : Env) (url : Url)
    (lid : Option Nat) (err : TypedFetchError) (st : PState) :
    decisionPreservesError err o (retryDecisionStep o env url lid err st).2 := by
  simp only [retryDecisionStep]
  repeat' split
  all_goals trivial


/-- Bodyless-method rejection, for every fuel level: the whole pipeline
(including all re-invocations) performs no transport call, never
succeeds, and any typed failure it returns is `invalid_options`. -/
theorem c6_aux (po : PathOrUrl) (env : Env) :
    ∀ (fuel : Nat) (o : ApiCallParams) (st : PState),
      (o.method = .GET ∨ o.method = .DELETE) →
      (o.payload.isSome = true ∨ o.formData.isSome = true) →
      (typedFetchAux fuel po o env st).1.fetchCount = st.fetchCount ∧
      transportEventCount (typedFetchAux fuel po o env st).1.events =
        transportEventCount st.events ∧
      outcomeIsInvalidFailure (typedFetchAux fuel po o env st).2 := by
  intro fuel
  induction fuel with
  | zero =>
    intro o st hm hb
    have hpc := preTransport_fetchCount po o env st
    have htc := preTransport_transportCount po o env st
    have hbody := preTransport_bodyless po o env st hm hb
    rcases hpt : preTransport po o env st with ⟨st1, out⟩
    rw [hpt] at hpc htc hbody
    cases out with
    | proceed ctx => exact False.elim hbody
    | exitDone outv =>
      cases outv with
      | ok v => exact False.elim hbody
      | err e =>
        have hrun : runAttempt po o env st = (st1, .ok (.done (.err e))) := by
          unfold runAttempt; rw [hpt]
        have hfx : typedFetchAux 0 po o env st = (st1, .ok (.err e)) := by
          unfold typedFetchAux; rw [hrun]
        rw [hfx]
        exact ⟨hpc, htc, hbody⟩
    | exitFail url lid e =>
      have hrun : runAttempt po o env st = (st1, .ok (.fail url lid e)) := by
        unfold runAttempt; rw [hpt]
      have hdf := retryDecisionStep_fetchCount o env url lid e st1
      have hdt := retryDecisionStep_transportCount o env url lid e st1
      have hdp := retryDecisionStep_preserves o env url lid e st1
      rcases hdec : retryDecisionStep o env url lid e st1 with ⟨stD, dec⟩
      rw [hdec] at hdf hdt hdp
      cases dec with
      | error ex =>
        have hfx : typedFetchAux 0 po o env st = (stD, .error ex) := by
          unfold typedFetchAux; simp only [hrun, hdec]
        rw [hfx]
        exact ⟨hdf.trans hpc, hdt.trans htc, trivial⟩
      | ok dec' =>
        cases dec' with
        | giveUp e' =>
          have hfx : typedFetchAux 0 po o env st = (stD, .ok (.err e')) := by
            unfold typedFetchAux; simp only [hrun, hdec]
          rw [hfx]
          exact ⟨hdf.trans hpc, hdt.trans htc, Eq.trans hdp hbody⟩
        | retryNow e' no =>
          have hfx : typedFetchAux 0 po o env st = (stD, .ok (.err e')) := by
            unfold typedFetchAux; simp only [hrun, hdec]
          rw [hfx]
          obtain ⟨hid, _, _, _⟩ := hdp
          exact ⟨hdf.trans hpc, hdt.trans htc, Eq.trans hid hbody⟩
  | succ f ih =>
    intro o st hm hb
    have hpc := preTransport_fetchCount po o env st
    have htc := preTransport_transportCount po o env st
    have hbody := preTransport_bodyless po o env st hm hb
    rcases hpt : preTransport po o env st with ⟨st1, out⟩
    rw [hpt] at hpc htc hbody
    cases out with
    | proceed ctx => exact False.elim hbody
    | exitDone outv =>
      cases outv with
      | ok v => exact False.elim hbody
      | err e =>
        have hrun : runAttempt po o env st = (st1, .ok (.done (.err e))) := by
          unfold runAttempt; rw [hpt]
        have hfx : typedFetchAux (f + 1) po o env st = (st1, .ok (.err e)) := by
          unfold typedFetchAux; rw [hrun]
        rw [hfx]
        exact ⟨hpc, htc, hbody⟩
    | exitFail url lid e =>
      have hrun : runAttempt po o env st = (st1, .ok (.fail url lid e)) := by
        unfold runAttempt; rw [hpt]
      have hdf := retryDecisionStep_fetchCount o env url lid e st1
      have hdt := retryDecisionStep_transportCount o env url lid e st1
      have hdp := retryDecisionStep_preserves o env url lid e st1
      rcases hdec : retryDecisionStep o env url lid e st1 with ⟨stD, dec⟩
      rw [hdec] at hdf hdt hdp
      cases dec with
      | error ex =>
        have hfx : typedFetchAux (f + 1) po o env st = (stD, .error ex) := by
          unfold typedFetchAux; simp only [hrun, hdec]
        rw [hfx]
        exact ⟨hdf.trans hpc, hdt.trans htc, trivial⟩
      | ok dec' =>
        cases dec' with
        | giveUp e' =>
          have hfx : typedFetchAux (f + 1) po o env st = (stD, .ok (.err e')) := by
            unfold typedFetchAux; simp only [hrun, hdec]
          rw [hfx]
          exact ⟨hdf.trans hpc, hdt.trans htc, Eq.trans hdp hbody⟩
        | retryNow e' no =>
          obtain ⟨hid, hmeq, hpeq, hfeq⟩ := hdp
          obtain ⟨ih1, ih2, ih3⟩ := ih no stD (by rw [hmeq]; exact hm)
            (by rw [hpeq, hfeq]; exact hb)
          unfold typedFetchAux
          simp only [hrun, hdec]
          exact ⟨ih1.trans (hdf.trans hpc), ih2.trans (hdt.trans htc), ih3⟩

/-- C6: a call that supplies a payload or form-data spec together with
method GET or DELETE never invokes the transport (invocation count and
event trace unchanged), never succeeds, any typed failure is
`invalid_options`, and — whenever the effective `retryOnErrIds` does not
retry `invalid_options` (always the case outside the C1 bug) — the call
returns an `invalid_options` failure. -/
theorem c6_bodyless_rejection (po : PathOrUrl) (o : ApiCallParams) (env : Env) (st : PState)
    (hm : o.method = .GET ∨ o.method = .DELETE)
    (hb : o.payload.isSome = true ∨ o.formData.isSome = true) :
    (typedFetch po o env st).1.fetchCount = st.fetchCount ∧
    transportEventCount (typedFetch po o env st).1.events = transportEventCount st.events ∧
    outcomeIsInvalidFailure (typedFetch po o env st).2 ∧
    (getCanRetryErrorId .invalid_options
        (match o.retry with | some r => r.retryOnErrIds | none => none) = false →
      ∃ e, (typedFetch po o env st).2 = .ok (.err e) ∧ e.id = .invalid_options) := by
  obtain ⟨h1, h2, h3⟩ := c6_aux po env (curMaxRetriesOf o.retry) o st hm hb
  refine ⟨h1, h2, h3, ?_⟩
  intro hcr
  have hbody := preTransport_bodyless po o env st hm hb
  rcases hpt : preTransport po o env st with ⟨st1, out⟩
  rw [hpt] at hbody
  cases out with
  | proceed ctx => exact False.elim hbody
  | exitDone outv =>
    cases outv with
    | ok v => exact False.elim hbody
    | err e =>
      have hrun : runAttempt po o env st = (st1, .ok (.done (.err e))) := by
        unfold runAttempt; rw [hpt]
      have hfx : typedFetch po o env st = (st1, .ok (.err e)) := by
        unfold typedFetch typedFetchAux; rw [hrun]
      exact ⟨e, by rw [hfx], hbody⟩
  | exitFail url lid e =>
    have hid : e.id = .invalid_options := hbody
    have hrun : runAttempt po o env st = (st1, .ok (.fail url lid e)) := by
      unfold runAttempt; rw [hpt]
    have hdec := retryDecision_giveUp o env url lid e st1 (by rw [hid]; exact hcr)
    have hfx : typedFetch po o env st =
        (giveUpState o
           (finalizeError o url (maxAttemptsOf o.retry)
             (maxAttemptsOf o.retry - curMaxRetriesOf o.retry + 1) e)
           (maxAttemptsOf o.retry - curMaxRetriesOf o.retry)
           (logErrState lid e st1),
         .ok (.err (finalizeError o url (maxAttemptsOf o.retry)
             (maxAttemptsOf o.retry - curMaxRetriesOf o.retry + 1) e))) := by
      unfold typedFetch typedFetchAux; simp only [hrun, hdec]
    exact ⟨finalizeError o url (maxAttemptsOf o.retry)
        (maxAttemptsOf o.retry - curMaxRetriesOf o.retry + 1) e,
      by rw [hfx], hid⟩

/-- C6 witness: a GET call with a JSON payload against a benign
environment. -/
theorem c6_bodyless_rejection_witness :
    (typedFetch (.url apiUrl) { payload := some (.obj []) } baseEnv .init).1.fetchCount =
      PState.init.fetchCount ∧
    transportEventCount (typedFetch (.url apiUrl) { payload := some (.obj []) }
        baseEnv .init).1.events = transportEventCount PState.init.events ∧
    outcomeIsInvalidFailure
      (typedFetch (.url apiUrl) { payload := some (.obj []) } baseEnv .init).2 ∧
    (getCanRetryErrorId .invalid_options
        (match ({ payload := some (.obj []) } : ApiCallParams).retry with
         | some r => r.retryOnErrIds | none => none) = false →
      ∃ e, (typedFetch (.url apiUrl) { payload := some (.obj []) } baseEnv .init).2 =
          .ok (.err e) ∧ e.id = .invalid_options) :=
  c6_bodyless_rejection (.url apiUrl) { payload := some (.obj []) } baseEnv .init
    (Or.inl rfl) (Or.inl rfl)



/-- ASCII lowercasing of the `Content-Type` header name. -/
theorem ctCapitalLower : strToLower "Content-Type" = "content-type" := by
  unfold strToLower
  rw [show ("Content-Type".data.map Char.toLower) = "content-type".data from by decide]

/-- Lowercasing the already-lowercase header name is the identity. -/
theorem ctPlainLower : strToLower "content-type" = "content-type" := by
  unfold strToLower
  rw [show ("content-type".data.map Char.toLower) = "content-type".data from by decide]

/-- Header lookup is case-insensitive on the `Content-Type` name. -/
theorem headersGet_capital (h : HeadersMap) :
    headersGet h "Content-Type" = headersGet h "content-type" := by
  unfold headersGet
  rw [ctCapitalLower, ctPlainLower]

/-- A search that fails on the first list continues into the second. -/
theorem headersFind_append_none {α : Type} (p : α → Bool) (l1 l2 : List α)
    (h : l1.find? p = none) : (l1 ++ l2).find? p = l2.find? p := by
  induction l1 with
  | nil => rfl
  | cons a t ih =>
    simp only [List.cons_append, List.find?_cons] at h ⊢
    cases hpa : p a
    · simp only [hpa] at h ⊢
      exact ih h
    · simp [hpa] at h

/-- Setting `Content-Type` on a container that does not yet hold it makes
the (case-insensitive) lookup return the new value. -/
theorem headersGet_set_fresh (h : HeadersMap) (v : String)
    (hn : headersGet h "content-type" = none) :
    headersGet (headersSet h "Content-Type" v) "content-type" = some v := by
  have hfind : h.find? (fun p => p.1 = strToLower "content-type") = none := by
    unfold headersGet at hn
    cases hf : h.find? (fun p => p.1 = strToLower "content-type") with
    | none => rfl
    | some x => rw [hf] at hn; cases hn
  have hany : h.any (fun p => p.1 = strToLower "Content-Type") = false := by
    rw [ctCapitalLower]
    rw [ctPlainLower] at hfind
    cases ha : h.any (fun p => p.1 = "content-type") with
    | false => rfl
    | true =>
      obtain ⟨x, hx, hpx⟩ := List.any_eq_true.mp ha
      exact absurd hpx (List.find?_eq_none.mp hfind x hx)
  unfold headersSet headersGet
  simp only [hany, if_false, Bool.false_eq_true]
  rw [ctPlainLower] at hfind
  rw [ctCapitalLower, ctPlainLower]
  rw [headersFind_append_none _ h _ hfind]
  rfl

/-- The guarded `onResponse` hook only appends to the event trace. -/
theorem onResponseState_mem (o : ApiCallParams) (ra : Nat) (st : PState) (ev : Event)
    (h : ev ∈ st.events) : ev ∈ (onResponseState o ra st).events := by
  unfold onResponseState
  cases ho : o.onResponse with
  | none => exact h
  | some cb =>
    cases hcb : cb ra <;> simp [hcb, List.mem_append] <;> exact Or.inl h

/-- The success log line only appends to the event trace. -/
theorem logSuccessEvt_mem (ctx : AttemptCtx) (st : PState) (ev : Event)
    (h : ev ∈ st.events) : ev ∈ (logSuccessEvt ctx st).events := by
  unfold logSuccessEvt
  cases ctx.logId
  · exact h
  · simp [List.mem_append]
    exact Or.inl h

/-- The post-transport phase only appends to the event trace. -/
theorem postTransport_mem (o : ApiCallParams) (env : Env) (ctx : AttemptCtx)
    (outc : FetchOutcome) (st : PState) (p : PState × Except JsErr PostOut)
    (hp : postTransport o env ctx outc st = p) (ev : Event) (h : ev ∈ st.events) :
    ev ∈ p.1.events := by
  subst hp
  simp only [postTransport]
  repeat' split
  all_goals first
    | exact h
    | exact onResponseState_mem o ctx.retryAttempt st ev h
    | exact logSuccessEvt_mem ctx _ ev (onResponseState_mem o ctx.retryAttempt st ev h)

/-- Every failure kind produced after the transport ran (timeout,
aborted, network, invalid JSON, invalid response, request error,
response validation) differs from `invalid_options`, and a settled
post-transport return is always a success. -/
theorem postTransport_notInvalid (o : ApiCallParams) (env : Env) (ctx : AttemptCtx)
    (outc : FetchOutcome) (st : PState) (p : PState × Except JsErr PostOut)
    (hp : postTransport o env ctx outc st = p) :
    PostOut.notInvalid p.2 := by
  subst hp
  simp only [postTransport]
  repeat' split
  all_goals first
    | trivial
    | (intro hcon; cases hcon)

/-- The error log line only appends to the event trace. -/
theorem logErrState_mem (lid : Option Nat) (e : TypedFetchError) (st : PState) (ev : Event)
    (h : ev ∈ st.events) : ev ∈ (logErrState lid e st).events := by
  unfold logErrState
  cases lid
  · exact h
  · simp [List.mem_append]
    exact Or.inl h

/-- The guarded `onError` hook only appends to the event trace. -/
theorem giveUpState_mem (o : ApiCallParams) (ne : TypedFetchError) (ra : Nat)
    (st : PState) (ev : Event) (h : ev ∈ st.events) :
    ev ∈ (giveUpState o ne ra st).events := by
  unfold giveUpState
  cases ho : o.onError with
  | none => exact h
  | some cb =>
    cases hcb : cb ne ra <;> simp [hcb, List.mem_append] <;> exact Or.inl h

/-- The transport phase records its transport invocation in the trace,
and the record survives the post-transport phase. -/
theorem transportPhase_mem (o : ApiCallParams) (env : Env) (ctx : AttemptCtx)
    (st1 : PState) :
    Event.transportCall ctx.req ∈ (transportPhase o env ctx st1).1.events := by
  simp only [transportPhase]
  split
  all_goals
    rename_i heq
    exact postTransport_mem _ _ _ _ _ _ heq _ (by simp)

/-- An attempt that reached the transport cannot exit with an
`invalid_options` failure, nor settle with a typed error. -/
theorem transportPhase_notInvalid (o : ApiCallParams) (env : Env) (ctx : AttemptCtx)
    (st1 : PState) :
    attemptNotInvalid (transportPhase o env ctx st1).2 := by
  simp only [transportPhase]
  split
  · trivial
  · rename_i st3 out heq
    cases out with
    | ok v => trivial
    | err e => exact False.elim (postTransport_notInvalid _ _ _ _ _ _ heq)
  · rename_i st3 e heq
    exact postTransport_notInvalid _ _ _ _ _ _ heq

/-- When the pre-transport phase proceeds, the attempt is the transport
phase on the produced context. -/
theorem runAttempt_proceed (po : PathOrUrl) (o : ApiCallParams) (env : Env)
    (st st1 : PState) (ctx : AttemptCtx)
    (hpre : preTransport po o env st = (st1, .proceed ctx)) :
    runAttempt po o env st = transportPhase o env ctx st1 := by
  unfold runAttempt
  rw [hpre]

/-- Without a retry policy, `errorResult` always gives up: error log
line, finalized error (`maxAttempts = 0`, first attempt) and the guarded
`onError` hook. -/
theorem retryDecisionStep_noRetry (o : ApiCallParams) (env : Env) (url : Url)
    (lid : Option Nat) (err : TypedFetchError) (st : PState) (hr : o.retry = none) :
    retryDecisionStep o env url lid err st =
      (giveUpState o (finalizeError o url 0 1 err) 0 (logErrState lid err st),
       .ok (.giveUp (finalizeError o url 0 1 err))) := by
  unfold retryDecisionStep
  rw [hr]
  rfl

/-- With a non-GET/DELETE method, a JSON payload the environment cannot
stringify, a multipart-free call, no content-type header and no
option-exclusivity violation, the pre-transport phase proceeds to the
transport with the `c9req` request: `undefined` body and
`Content-Type: application/json` set. -/
theorem c9_pre (o : ApiCallParams) (env : Env) (u : Url) (st : PState) (pl : JsVal)
    (hm1 : o.method ≠ .GET) (hm2 : o.method ≠ .DELETE)
    (hpl : o.payload = some pl) (hfd : o.formData = none)
    (hsj : env.safeJsonStringify pl = none) (hjr : o.jsonResponse = true)
    (hpp : o.pathParams = none) (hjp : o.jsonPathParams = none)
    (honreq : o.onRequest = none)
    (hct : headersGet (buildFinalHeaders o.headers) "content-type" = none) :
    preTransport (.url u) o env st =
      (logStartState o st,
       .proceed { url := u, logId := logStartId o st
                  retryAttempt := maxAttemptsOf o.retry - curMaxRetriesOf o.retry
                  req := c9req o u }) := by
  have hct2 : headersGet (buildFinalHeaders o.headers) "Content-Type" = none := by
    rw [headersGet_capital]
    exact hct
  unfold preTransport
  simp [resolveUrl, hpl, hfd, hjr, hpp, hjp, honreq, hm1, hm2, buildBody, hsj,
        hct, hct2, optStrTruthy, c9req, applyJsonPathParams]

/-- C9: a non-GET/DELETE call whose JSON payload cannot be serialized
(`safeJsonStringify` returns `undefined`, e.g. a cyclic reference) does
not fail with `invalid_options`: the transport is invoked with an
`undefined` body, and `Content-Type: application/json` is still set when
no content-type header was already present.  Stated for a resolved URL
argument with the other pre-transport stages (path params, `onRequest`,
retry) left at their defaults so the serialization branch is isolated. -/
theorem c9_unserializable_payload (o : ApiCallParams) (env : Env) (u : Url)
    (st : PState) (pl : JsVal)
    (hm1 : o.method ≠ .GET) (hm2 : o.method ≠ .DELETE)
    (hpl : o.payload = some pl) (hfd : o.formData = none)
    (hsj : env.safeJsonStringify pl = none) (hjr : o.jsonResponse = true)
    (hpp : o.pathParams = none) (hjp : o.jsonPathParams = none)
    (honreq : o.onRequest = none) (hr : o.retry = none)
    (hct : headersGet (buildFinalHeaders o.headers) "content-type" = none) :
    (c9req o u).body = .noBody ∧
    headersGet (c9req o u).headers "content-type" = some "application/json" ∧
    Event.transportCall (c9req o u) ∈ (typedFetch (.url u) o env st).1.events ∧
    outcomeNotInvalid (typedFetch (.url u) o env st).2 := by
  have hpre := c9_pre o env u st pl hm1 hm2 hpl hfd hsj hjr hpp hjp honreq hct
  have hrun := runAttempt_proceed (.url u) o env st (logStartState o st) _ hpre
  have hmem := transportPhase_mem o env
    { url := u, logId := logStartId o st
      retryAttempt := maxAttemptsOf o.retry - curMaxRetriesOf o.retry
      req := c9req o u } (logStartState o st)
  have hni := transportPhase_notInvalid o env
    { url := u, logId := logStartId o st
      retryAttempt := maxAttemptsOf o.retry - curMaxRetriesOf o.retry
      req := c9req o u } (logStartState o st)
  have htf0 : typedFetch (.url u) o env st = typedFetchAux 0 (.url u) o env st := by
    unfold typedFetch
    rw [hr]
    rfl
  rcases htp : transportPhase o env
      { url := u, logId := logStartId o st
        retryAttempt := maxAttemptsOf o.retry - curMaxRetriesOf o.retry
        req := c9req o u } (logStartState o st) with ⟨stT, rT⟩
  rw [htp] at hrun hmem hni
  refine ⟨rfl, headersGet_set_fresh _ _ hct, ?_⟩
  cases rT with
  | error ex =>
    have hfx : typedFetchAux 0 (.url u) o env st = (stT, .error ex) := by
      unfold typedFetchAux
      simp only [hrun]
    rw [htf0, hfx]
    exact ⟨hmem, trivial⟩
  | ok ex' =>
    cases ex' with
    | done out =>
      cases out with
      | ok v =>
        have hfx : typedFetchAux 0 (.url u) o env st = (stT, .ok (.ok v)) := by
          unfold typedFetchAux
          simp only [hrun]
        rw [htf0, hfx]
        exact ⟨hmem, trivial⟩
      | err e => exact False.elim hni
    | fail url2 lid e =>
      have hdec := retryDecisionStep_noRetry o env url2 lid e stT hr
      have hfx : typedFetchAux 0 (.url u) o env st =
          (giveUpState o (finalizeError o url2 0 1 e) 0 (logErrState lid e stT),
           .ok (.err (finalizeError o url2 0 1 e))) := by
        unfold typedFetchAux
        simp only [hrun, hdec]
      rw [htf0, hfx]
      constructor
      · exact giveUpState_mem o _ 0 _ _ (logErrState_mem lid e stT _ hmem)
      · exact hni

/-- C9 witness: a POST call with an unserializable JSON payload against
a benign environment. -/
theorem c9_unserializable_payload_witness :
    (c9req c9opts apiUrl).body = .noBody ∧
    headersGet (c9req c9opts apiUrl).headers "content-type" = some "application/json" ∧
    Event.transportCall (c9req c9opts apiUrl) ∈
      (typedFetch (.url apiUrl) c9opts c9env .init).1.events ∧
    outcomeNotInvalid (typedFetch (.url apiUrl) c9opts c9env .init).2 :=
  c9_unserializable_payload c9opts c9env apiUrl .init (.obj [])
    (by decide) (by decide) rfl rfl rfl rfl rfl rfl rfl rfl rfl

end TypedFetch
